import Mathlib

/-!
# Referral dashboard: authentication, referral codes, leaderboard and reward tiers

A shallow embedding of `server/server.js` (the Express/Mongoose API) and of the two
reward helpers of `client/src/App.js`, followed by theorems about them.

Conventions of the embedding.

* JavaScript strings are Lean `String`s; a request-body field is an `Option String`
  (`none` is a field that is absent from the JSON body, i.e. `undefined`).
* The MongoDB collection is the list of its documents in insertion order.  The two
  unique indexes declared by the schema (`email`, `referralCode`) and the built-in
  one on `_id` are enforced by `insertOne`.
* Library calls whose result the code cannot determine are explicit inputs: the
  fresh `ObjectId`, the bcrypt salt, `Math.random()`, `Date.now()`, and the order in
  which MongoDB returns documents that tie on the sort key.
* `bcryptjs`, `jsonwebtoken` and `String.prototype.toLowerCase` are parameters
  collected in `Runtime`; the contract of `jsonwebtoken` that the code relies on is
  the predicate `JwtLawful`.
* `donationsRaised` is an integer (`Int`), as the specification assumes integer units.
  A JavaScript Number with an integer value is given by that value; where the code
  computes with Numbers (`+=` in the donation update, `-` and the template literal
  in `getNextReward`), the model rounds to the nearest IEEE-754 double and prints as
  `Number.prototype.toString` does.  Non-integer Numbers and the infinities (values
  of magnitude `2 ^ 1024` and more) are outside the model.
-/

namespace Referral

/-! ## Strings -/

/-- The characters matched by the JavaScript regular-expression class `\s`. -/
def isJsWhitespace (c : Char) : Bool :=
  let n := c.toNat
  n == 0x09 || n == 0x0A || n == 0x0B || n == 0x0C || n == 0x0D || n == 0x20 ||
  n == 0xA0 || n == 0x1680 || (0x2000 ≤ n && n ≤ 0x200A) ||
  n == 0x2028 || n == 0x2029 || n == 0x202F || n == 0x205F || n == 0x3000 || n == 0xFEFF

/-- Model of `str.replace(/\s+/g, repl)` on the characters of `str`: the scan walks
the string left to right; every maximal run of whitespace is one match and is
replaced by one copy of `repl`.  The flag tells whether the previous character
belonged to the match in progress. -/
def replaceWsRuns (repl : List Char) : Bool → List Char → List Char
  | _, [] => []
  | inRun, c :: cs =>
    if isJsWhitespace c then
      (if inRun then [] else repl) ++ replaceWsRuns repl true cs
    else
      c :: replaceWsRuns repl false cs

/-- Model of `str.replace(/\s+/g, '')`. -/
def removeWhitespaceRuns (s : String) : String :=
  String.mk (replaceWsRuns [] false s.data)

/-- Model of `str.split(sep)` for a one-character separator, on character lists:
the result always has at least one piece. -/
def splitChars (sep : Char) : List Char → List (List Char)
  | [] => [[]]
  | c :: cs =>
    if c = sep then [] :: splitChars sep cs
    else
      match splitChars sep cs with
      | [] => [[c]]
      | p :: ps => (c :: p) :: ps

/-- Model of `str.split(' ')`. -/
def jsSplitSpace (s : String) : List String :=
  (splitChars ' ' s.data).map String.mk

/-! ## Numbers -/

/-- The number of low bits of `a` that do not fit into the 53-bit significand of a
double: the least `k` with `a / 2 ^ k < 2 ^ 53 = 9007199254740992` (`fuel` bounds the
search; `a` itself is enough). -/
def droppedBits : Nat → Nat → Nat
  | 0, _ => 0
  | fuel + 1, a => if a < 9007199254740992 then 0 else droppedBits fuel (a / 2) + 1

/-- The double nearest to the natural number `a`: the significand keeps 53 bits, the
dropped bits round to nearest, a tie going to the even significand. -/
def roundDoubleNat (a : Nat) : Nat :=
  let k := droppedBits a a
  let q := a / 2 ^ k
  let r := a % 2 ^ k
  let up := 2 * r > 2 ^ k ∨ (2 * r = 2 ^ k ∧ q % 2 = 1)
  (if up then q + 1 else q) * 2 ^ k

/-- The Number for the integer `x`: what `JSON.parse` makes of an integer literal, and
the rounding step of every arithmetic operation. -/
def roundDouble (x : Int) : Int :=
  if x < 0 then -(roundDoubleNat x.natAbs : Int) else (roundDoubleNat x.natAbs : Int)

/-- The JavaScript sum `a + b` of two integer-valued Numbers. -/
def numberAdd (a b : Int) : Int := roundDouble (a + b)

/-- The JavaScript difference `a - b` of two integer-valued Numbers. -/
def numberSub (a b : Int) : Int := roundDouble (a - b)

/-- The multiple of `m` nearest to `a`, a tie going to the even multiplier. -/
def nearestMultiple (m a : Nat) : Nat :=
  let q := a / m
  let r := a % m
  let up := 2 * r > m ∨ (2 * r = m ∧ q % 2 = 1)
  (if up then q + 1 else q) * m

/-- The decimal that `Number.prototype.toString` prints for the double `a`: the one
with the fewest significant digits among those that read back as `a`, that is, the
nearest multiple of the largest power `10 ^ j` that still rounds to `a`. -/
def shortestDecimal (a : Nat) : Nat → Nat
  | 0 => a
  | j + 1 =>
    let c := nearestMultiple (10 ^ (j + 1)) a
    if c ≠ 0 ∧ roundDoubleNat c = a then c else shortestDecimal a j

/-- The digits without the zeros at the end. -/
def dropTrailingZeros (digits : List Char) : List Char :=
  (digits.reverse.dropWhile (fun d => d = '0')).reverse

/-- Model of `Number.prototype.toString` on a non-negative integer-valued double:
plain digits below `10 ^ 21`, exponent form from there on. -/
def numberToStringNat (a : Nat) : String :=
  let c := shortestDecimal a (toString a).length
  if c < 10 ^ 21 then toString c
  else
    let digits := (toString c).data
    let e := "e+" ++ toString (digits.length - 1)
    match dropTrailingZeros digits with
    | [] => e
    | [d] => String.mk [d] ++ e
    | d :: ds => String.mk (d :: '.' :: ds) ++ e

/-- Model of `Number.prototype.toString` on an integer-valued double, as a template
literal applies it. -/
def numberToString (x : Int) : String :=
  if x < 0 then "-" ++ numberToStringNat x.natAbs else numberToStringNat x.natAbs

/-- The constant `Number.MAX_SAFE_INTEGER`, `2 ^ 53 - 1`. -/
def maxSafeInteger : Nat := 9007199254740991

/-- The predicate `Number.isSafeInteger` on an integer. -/
def IsSafeInteger (x : Int) : Prop := x.natAbs ≤ maxSafeInteger

instance (x : Int) : Decidable (IsSafeInteger x) :=
  inferInstanceAs (Decidable (x.natAbs ≤ maxSafeInteger))

/-! ## Library parameters -/

/-- An `ObjectId`, identified with the natural number it encodes. -/
abbrev ObjectId := Nat

/-- The decoded payload handed to the callback of `jwt.verify`. -/
structure JwtClaims where
  userId : ObjectId
  email : String
  iat : Nat
  exp : Nat
  deriving DecidableEq, Repr

/-- The part of `jsonwebtoken` used by the server.  `sign uid email secret iat ttl`
is `jwt.sign({userId, email}, secret, {expiresIn: ttl})` called at second `iat`;
`verify token secret now` is `jwt.verify(token, secret, cb)` at second `now`, with
`none` standing for an error passed to the callback. -/
structure JwtLib where
  sign : ObjectId → String → String → Nat → Nat → String
  verify : String → String → Nat → Option JwtClaims

/-- The documented contract of `jsonwebtoken` that the server relies on: a compact
JWT is a non-empty string of base64url characters and dots, and a token verifies
under the secret that signed it, giving back the signed payload with its `iat` and
`exp = iat + ttl`, as long as the clock has not reached `exp`. -/
structure JwtLawful (jwt : JwtLib) : Prop where
  sign_ne_empty : ∀ uid email secret iat ttl, jwt.sign uid email secret iat ttl ≠ ""
  sign_no_space : ∀ uid email secret iat ttl, ' ' ∉ (jwt.sign uid email secret iat ttl).data
  verify_sign : ∀ uid email secret iat ttl now, now < iat + ttl →
    jwt.verify (jwt.sign uid email secret iat ttl) secret now =
      some { userId := uid, email := email, iat := iat, exp := iat + ttl }

/-- The documented contract of `jsonwebtoken` on tokens it must refuse: a token
whose `exp` the clock has reached is reported as expired, and a token signed with
another secret is reported as wrongly signed (the signature, an HMAC of the
payload, is taken to differ under a different key). -/
structure JwtRejects (jwt : JwtLib) : Prop where
  verify_expired : ∀ uid email secret iat ttl now, iat + ttl ≤ now →
    jwt.verify (jwt.sign uid email secret iat ttl) secret now = none
  verify_other_secret : ∀ uid email secret other iat ttl now, other ≠ secret →
    jwt.verify (jwt.sign uid email other iat ttl) secret now = none

/-- The library functions the server calls. -/
structure Runtime where
  /-- `String.prototype.toLowerCase`. -/
  toLowerCase : String → String
  /-- `bcrypt.hash(password, 10)` with the salt it drew. -/
  bcryptHash : String → Nat → String
  /-- `bcrypt.compare(password, hash)` on two strings. -/
  bcryptCompare : String → String → Bool
  jwt : JwtLib

/-- The process environment read by the server. -/
structure Env where
  JWT_SECRET : Option String
  deriving DecidableEq, Repr

/-- The expression `process.env.JWT_SECRET || 'your-secret-key'`: an unset or empty
variable falls back to the default. -/
def jwtSecret (env : Env) : String :=
  match env.JWT_SECRET with
  | some s => if s = "" then "your-secret-key" else s
  | none => "your-secret-key"

/-! ## Data model -/

/-- A stored document of the `User` model. -/
structure User where
  _id : ObjectId
  name : String
  email : String
  password : String
  referralCode : Option String
  donationsRaised : Int
  joiningDate : Nat
  createdAt : Nat
  updatedAt : Nat
  deriving DecidableEq, Repr

/-- A document built by `new User({...})` and not yet validated or saved. -/
structure Draft where
  _id : ObjectId
  name : Option String
  email : Option String
  password : Option String
  referralCode : Option String
  donationsRaised : Int
  joiningDate : Nat
  deriving DecidableEq, Repr

/-- The collection, in insertion order. -/
abbrev Store := List User

/-! ## Referral code generator (the `pre('save')` hook) -/

/-- The code computed inside the hook: `this.name.toLowerCase().replace(/\s+/g, '')`
followed by the template suffix `2025`. -/
def generate (rt : Runtime) (name : String) : String :=
  let nameCode := removeWhitespaceRuns (rt.toLowerCase name)
  nameCode ++ "2025"

/-- JavaScript truthiness of an optional string: `undefined` and `''` are falsy. -/
def truthy : Option String → Bool
  | none => false
  | some s => s != ""

/-- The hook `userSchema.pre('save', ...)`: a document whose `referralCode` is falsy
gets the generated code, any other document is left alone. -/
def preSave (rt : Runtime) (u : User) : User :=
  if !truthy u.referralCode then
    { u with referralCode := some (generate rt u.name) }
  else u

/-- The specification's wording of the generator: lower-case the name, delete every
whitespace character, append the suffix. -/
def specGenerate (rt : Runtime) (name : String) : String :=
  String.mk ((rt.toLowerCase name).data.filter (fun c => !isJsWhitespace c)) ++ "2025"

/-! ## Requests and responses -/

/-- The `user` object of the signup and login responses. -/
structure PublicUser where
  id : ObjectId
  name : String
  email : String
  referralCode : Option String
  donationsRaised : Int
  deriving DecidableEq, Repr

/-- One element of the leaderboard array. -/
structure LeaderboardEntry where
  rank : Nat
  name : String
  referralCode : Option String
  donationsRaised : Int
  deriving DecidableEq, Repr

/-- The JSON bodies the server sends. -/
inductive Body where
  | error (error : String)
  | auth (message : String) (token : String) (user : PublicUser)
  | dashboard (name email : String) (referralCode : Option String)
      (donationsRaised : Int) (joiningDate : Nat)
  | leaderboard (entries : List LeaderboardEntry)
  | donations (message : String) (donationsRaised : Int)
  | message (message : String)
  deriving DecidableEq, Repr

/-- An HTTP response: status code and JSON body. -/
structure Response where
  status : Nat
  body : Body
  deriving DecidableEq, Repr

/-- The body of `POST /api/signup`. -/
structure SignupBody where
  name : Option String
  email : Option String
  password : Option String
  deriving DecidableEq, Repr

/-- The body of `POST /api/login`. -/
structure LoginBody where
  email : Option String
  password : Option String
  deriving DecidableEq, Repr

/-- The values a request draws from outside the program: the `ObjectId` of a new
document, the bcrypt salt, `Math.floor(Math.random() * 5000)` and `Date.now()`. -/
structure Fresh where
  oid : ObjectId
  salt : Nat
  random : Fin 5000
  nowMs : Nat
  deriving DecidableEq, Repr

/-- The answer of every `catch` block. -/
def serverError : Response := ⟨500, .error "Server error"⟩

/-- The `user` object built from a document in the signup and login responses. -/
def publicUser (u : User) : PublicUser :=
  { id := u._id, name := u.name, email := u.email,
    referralCode := u.referralCode, donationsRaised := u.donationsRaised }

/-! ## Credential store -/

/-- Model of `User.findOne({ email })`.  An `undefined` email is sent as `null`,
which no stored document matches, every stored email being a string. -/
def findOneByEmail (s : Store) : Option String → Option User
  | none => none
  | some e => s.find? (fun u => u.email = e)

/-- Model of `User.findById(id)`. -/
def findById (s : Store) (id : ObjectId) : Option User :=
  s.find? (fun u => u._id = id)

/-- Why `save()` rejects. -/
inductive SaveError where
  | validation
  | duplicateKey
  deriving DecidableEq, Repr

/-- Schema validation of a new document: `name`, `email` and `password` are
`required`, which for a string path means present and non-empty. -/
def validate (d : Draft) (nowMs : Nat) : Except SaveError User :=
  match d.name, d.email, d.password with
  | some n, some e, some p =>
    if n = "" ∨ e = "" ∨ p = "" then .error .validation
    else .ok { _id := d._id, name := n, email := e, password := p,
               referralCode := d.referralCode, donationsRaised := d.donationsRaised,
               joiningDate := d.joiningDate, createdAt := nowMs, updatedAt := nowMs }
  | _, _, _ => .error .validation

/-- The insert sent to MongoDB: it is refused with a duplicate-key error when the
`_id`, the `email` or the `referralCode` (an absent one counting as `null`) is
already indexed, and appends the document otherwise. -/
def insertOne (s : Store) (u : User) : Except SaveError Store :=
  if s.any (fun v => v._id = u._id ∨ v.email = u.email ∨ v.referralCode = u.referralCode) then
    .error .duplicateKey
  else .ok (s ++ [u])

/-- Model of `user.save()` on a new document: validation, then the `pre('save')`
hook, then the insert. -/
def saveNew (rt : Runtime) (nowMs : Nat) (s : Store) (d : Draft) : Except SaveError (User × Store) :=
  match validate d nowMs with
  | .error e => .error e
  | .ok u =>
    let u := preSave rt u
    match insertOne s u with
    | .error e => .error e
    | .ok s' => .ok (u, s')

/-! ## Session tokens -/

/-- The call `jwt.sign({ userId: user._id, email: user.email }, secret, { expiresIn: '24h' })`
made at `nowMs`; `jsonwebtoken` counts time in whole seconds. -/
def issueToken (rt : Runtime) (env : Env) (nowMs : Nat) (u : User) : String :=
  rt.jwt.sign u._id u.email (jwtSecret env) (nowMs / 1000) 86400

/-- The value of `authHeader && authHeader.split(' ')[1]`; `none` is `undefined`. -/
def extractToken : Option String → Option String
  | none => none
  | some authHeader =>
    if authHeader = "" then some "" else (jsSplitSpace authHeader)[1]?

/-- The middleware `authenticateToken`: the error response it sends, or the decoded
payload it stores in `req.user` before calling `next()`. -/
def authenticateToken (rt : Runtime) (env : Env) (nowMs : Nat)
    (authorization : Option String) : Except Response JwtClaims :=
  let token := extractToken authorization
  if !truthy token then .error ⟨401, .error "Access token required"⟩
  else
    match rt.jwt.verify (token.getD "") (jwtSecret env) (nowMs / 1000) with
    | none => .error ⟨403, .error "Invalid token"⟩
    | some user => .ok user

/-! ## Routes -/

/-- The handler of `POST /api/signup`. -/
def signup (rt : Runtime) (env : Env) (fr : Fresh) (s : Store) (body : SignupBody) :
    Response × Store :=
  match findOneByEmail s body.email with
  | some _ => (⟨400, .error "User already exists"⟩, s)
  | none =>
    match body.password with
    | none => (serverError, s)
    | some password =>
      let hashedPassword := rt.bcryptHash password fr.salt
      let draft : Draft :=
        { _id := fr.oid, name := body.name, email := body.email,
          password := some hashedPassword, referralCode := none,
          donationsRaised := (fr.random.val : Int), joiningDate := fr.nowMs }
      match saveNew rt fr.nowMs s draft with
      | .error _ => (serverError, s)
      | .ok (user, s') =>
        let token := issueToken rt env fr.nowMs user
        (⟨201, .auth "User created successfully" token (publicUser user)⟩, s')

/-- The handler of `POST /api/login`.  `bcrypt.compare` throws on an `undefined`
password, which the `catch` block answers. -/
def login (rt : Runtime) (env : Env) (fr : Fresh) (s : Store) (body : LoginBody) :
    Response × Store :=
  match findOneByEmail s body.email with
  | none => (⟨400, .error "Invalid credentials"⟩, s)
  | some user =>
    match body.password with
    | none => (serverError, s)
    | some password =>
      if !rt.bcryptCompare password user.password then
        (⟨400, .error "Invalid credentials"⟩, s)
      else
        let token := issueToken rt env fr.nowMs user
        (⟨200, .auth "Login successful" token (publicUser user)⟩, s)

/-! ## Ranking -/

/-- The order requested by `.sort({ donationsRaised: -1 })`. -/
def donationsGe (a b : User) : Prop := a.donationsRaised ≥ b.donationsRaised

instance : DecidableRel donationsGe := fun a b =>
  inferInstanceAs (Decidable (a.donationsRaised ≥ b.donationsRaised))

instance : IsTotal User donationsGe := ⟨fun a b => Int.le_total b.donationsRaised a.donationsRaised⟩

instance : IsTrans User donationsGe := ⟨fun _ _ _ hab hbc => Int.le_trans hbc hab⟩

/-- What MongoDB promises about `User.find().sort({ donationsRaised: -1 })`: the
documents of the collection, each once, in non-increasing order of the key.  The
query names no second sort key, and the database returns documents whose sort
keys are equal in any order, so the cursor is an input of the handler that is
constrained by this predicate. -/
def MongoSortedDesc (s : Store) (cursor : List User) : Prop :=
  cursor.Perm s ∧ cursor.Sorted donationsGe

instance (s : Store) (cursor : List User) : Decidable (MongoSortedDesc s cursor) :=
  inferInstanceAs (Decidable (_ ∧ _))

/-- One answer the database may give: the stable descending sort of the collection. -/
def stableSortDesc (s : Store) : List User := s.insertionSort donationsGe

/-- The array built by `users.map((user, index) => ({ rank: index + 1, ... }))`. -/
def leaderboardEntries (users : List User) : List LeaderboardEntry :=
  users.mapIdx fun index user =>
    { rank := index + 1, name := user.name, referralCode := user.referralCode,
      donationsRaised := user.donationsRaised }

/-- The handler of `GET /api/leaderboard`, given the sorted cursor: `.limit(10)` keeps
its first ten documents, which are then ranked.  (`.select(...)` keeps the three
fields the handler reads.) -/
def leaderboardHandler (cursor : List User) (s : Store) : Response × Store :=
  let users := cursor.take 10
  (⟨200, .leaderboard (leaderboardEntries users)⟩, s)

/-- The route `GET /api/leaderboard`: the middleware, then the handler. -/
def getLeaderboard (rt : Runtime) (env : Env) (nowMs : Nat) (cursor : List User) (s : Store)
    (authorization : Option String) : Response × Store :=
  match authenticateToken rt env nowMs authorization with
  | .error r => (r, s)
  | .ok _ => leaderboardHandler cursor s

/-! ## Authenticated routes -/

/-- The Express chain `app.METHOD(path, authenticateToken, handler)`: the handler
runs, with the decoded payload in `req.user`, only when the middleware calls
`next()`; otherwise the middleware's response is the answer. -/
def withAuth (rt : Runtime) (env : Env) (nowMs : Nat) (authorization : Option String)
    (handler : JwtClaims → Store → Response × Store) (s : Store) : Response × Store :=
  match authenticateToken rt env nowMs authorization with
  | .error r => (r, s)
  | .ok reqUser => handler reqUser s

/-- The handler of `GET /api/dashboard`. -/
def dashboardHandler (reqUser : JwtClaims) (s : Store) : Response × Store :=
  match findById s reqUser.userId with
  | none => (⟨404, .error "User not found"⟩, s)
  | some user =>
    (⟨200, .dashboard user.name user.email user.referralCode user.donationsRaised
      user.joiningDate⟩, s)

/-- The route `GET /api/dashboard`. -/
def getDashboard (rt : Runtime) (env : Env) (nowMs : Nat) (authorization : Option String)
    (s : Store) : Response × Store :=
  withAuth rt env nowMs authorization dashboardHandler s

/-- The body of `PUT /api/donations`: `amount` is the integer literal of the JSON
body, or absent.  A body whose `amount` is another JSON value (`null`, a string, a
fraction) is outside the model. -/
structure DonationsBody where
  amount : Option Int
  deriving DecidableEq, Repr

/-- The collection after `updateOne({ _id: doc._id }, ...)` has written `doc`: the
first document with that `_id` is replaced. -/
def replaceById (doc : User) : Store → Store
  | [] => []
  | v :: vs => if v._id = doc._id then doc :: vs else v :: replaceById doc vs

/-- The documents of the collection other than the first one with the given `_id`. -/
def eraseById (id : ObjectId) : Store → Store
  | [] => []
  | v :: vs => if v._id = id then vs else v :: eraseById id vs

/-- Model of `user.save()` on a document `loaded` from the collection and changed
to `doc`: the `required` validators run again; the timestamps hook stamps
`updatedAt` when the document was modified; the `pre('save')` hook runs; the
update is refused with a duplicate-key error when it writes a `referralCode` that
another document already has. -/
def saveExisting (rt : Runtime) (nowMs : Nat) (s : Store) (loaded doc : User) :
    Except SaveError (User × Store) :=
  if doc.name = "" ∨ doc.email = "" ∨ doc.password = "" then .error .validation
  else
    let stamped := if doc = loaded then doc else { doc with updatedAt := nowMs }
    let hooked := preSave rt stamped
    if hooked.referralCode ≠ loaded.referralCode ∧
        (eraseById loaded._id s).any (fun v => v.referralCode = hooked.referralCode) then
      .error .duplicateKey
    else .ok (hooked, replaceById hooked s)

/-- The handler of `PUT /api/donations`.  With `amount` absent the sum is `NaN`,
which the `Number` path refuses, so `save()` rejects and the `catch` block answers.
Otherwise `amount` is the Number that `express.json()` read from the literal, and
`user.donationsRaised += amount` is a Number addition. -/
def donationsHandler (rt : Runtime) (nowMs : Nat) (body : DonationsBody) (reqUser : JwtClaims)
    (s : Store) : Response × Store :=
  match findById s reqUser.userId with
  | none => (⟨404, .error "User not found"⟩, s)
  | some user =>
    match body.amount with
    | none => (serverError, s)
    | some amount =>
      let updated :=
        { user with donationsRaised := numberAdd user.donationsRaised (roundDouble amount) }
      match saveExisting rt nowMs s user updated with
      | .error _ => (serverError, s)
      | .ok (saved, s') =>
        (⟨200, .donations "Donation amount updated" saved.donationsRaised⟩, s')

/-- The route `PUT /api/donations`. -/
def putDonations (rt : Runtime) (env : Env) (nowMs : Nat) (authorization : Option String)
    (body : DonationsBody) (s : Store) : Response × Store :=
  withAuth rt env nowMs authorization (donationsHandler rt nowMs body) s

/-! ## Seeding -/

/-- The values `POST /api/seed` draws from outside: the `ObjectId` and the bcrypt
salt of the demo user at each index, and `Date.now()`. -/
structure SeedFresh where
  oid : Nat → ObjectId
  salt : Nat → Nat
  nowMs : Nat

/-- The array `demoUsers` of the seed route; no element has a `referralCode`. -/
def demoUsers (rt : Runtime) (fr : SeedFresh) : List Draft :=
  let mk (i : Nat) (name email : String) (donations : Int) : Draft :=
    { _id := fr.oid i, name := some name, email := some email,
      password := some (rt.bcryptHash "password123" (fr.salt i)), referralCode := none,
      donationsRaised := donations, joiningDate := fr.nowMs }
  [ mk 0 "Akshad Pastambh" "akshad@example.com" 5000,
    mk 1 "John Doe" "john@example.com" 3500,
    mk 2 "Alice Smith" "alice@example.com" 2800,
    mk 3 "Bob Johnson" "bob@example.com" 1500,
    mk 4 "Emma Wilson" "emma@example.com" 900 ]

/-- Validation of every document of an `insertMany` call. -/
def validateAll (nowMs : Nat) : List Draft → Except SaveError (List User)
  | [] => .ok []
  | d :: ds =>
    match validate d nowMs with
    | .error e => .error e
    | .ok u =>
      match validateAll nowMs ds with
      | .error e => .error e
      | .ok us => .ok (u :: us)

/-- The ordered bulk insert: documents are inserted one by one and the first refused
insert stops the batch, the documents inserted before it staying in the collection.
The flag tells whether the whole batch went in. -/
def insertOrdered (s : Store) : List User → Bool × Store
  | [] => (true, s)
  | u :: us =>
    match insertOne s u with
    | .error _ => (false, s)
    | .ok s' => insertOrdered s' us

/-- Model of `User.insertMany(docs)`: every document is validated first and nothing
is sent when one is invalid; the `pre('save')` hook is not run. -/
def insertMany (nowMs : Nat) (s : Store) (docs : List Draft) : Bool × Store :=
  match validateAll nowMs docs with
  | .error _ => (false, s)
  | .ok users => insertOrdered s users

/-- The handler of `POST /api/seed`. -/
def seed (rt : Runtime) (fr : SeedFresh) (s : Store) : Response × Store :=
  if s.length > 0 then (⟨200, .message "Demo data already exists"⟩, s)
  else
    match insertMany fr.nowMs s (demoUsers rt fr) with
    | (false, s') => (serverError, s')
    | (true, s') => (⟨200, .message "Demo data created successfully"⟩, s')

/-! ## Reachable store states -/

/-- The store states the server can reach from the empty collection by signup, seed
and donation-update requests; `allowed` says which donation bodies are sent. -/
inductive Reachable (rt : Runtime) (env : Env) (allowed : DonationsBody → Prop) : Store → Prop
  | empty : Reachable rt env allowed []
  | signup (s : Store) (fr : Fresh) (body : SignupBody) :
      Reachable rt env allowed s → Reachable rt env allowed (signup rt env fr s body).2
  | seed (s : Store) (fr : SeedFresh) :
      Reachable rt env allowed s → Reachable rt env allowed (seed rt fr s).2
  | donations (s : Store) (nowMs : Nat) (authorization : Option String) (body : DonationsBody) :
      allowed body → Reachable rt env allowed s →
      Reachable rt env allowed (putDonations rt env nowMs authorization body s).2

/-! ## Reward tiers (client) -/

/-- The object returned by `getRewardStatus`. -/
structure RewardStatus where
  text : String
  unlocked : Bool
  deriving DecidableEq, Repr

/-- The client helper `getRewardStatus`. -/
def getRewardStatus (amount : Int) : RewardStatus :=
  if amount ≥ 5000 then { text := "👑 Certificate + Goodies", unlocked := true }
  else if amount ≥ 2500 then { text := "🚀 LinkedIn Shoutout", unlocked := true }
  else if amount ≥ 1000 then { text := "🎉 Free Swag Kit", unlocked := true }
  else { text := "Keep going to unlock rewards!", unlocked := false }

/-- The client helper `getNextReward` on an integer-valued Number; the difference is
a Number subtraction and the template literal prints it as a Number. -/
def getNextReward (amount : Int) : String :=
  if amount < 1000 then
    "₹" ++ numberToString (numberSub 1000 amount) ++ " more for Swag Kit"
  else if amount < 2500 then
    "₹" ++ numberToString (numberSub 2500 amount) ++ " more for LinkedIn Shoutout"
  else if amount < 5000 then
    "₹" ++ numberToString (numberSub 5000 amount) ++ " more for Certificate + Goodies"
  else "All rewards unlocked! 🎉"

/-- The specification's table of reward thresholds, in increasing order, with the
name `getNextReward` gives to each reward. -/
def rewardThresholds : List (Int × String) :=
  [(1000, "Swag Kit"), (2500, "LinkedIn Shoutout"), (5000, "Certificate + Goodies")]

/-- The specification's wording of the next reward: the smallest threshold that
`amount` has not reached, if there is one. -/
def nextThreshold (amount : Int) : Option (Int × String) :=
  rewardThresholds.find? fun t => amount < t.1

/-- The specification's ladder of tiers, lowest first: the text `getRewardStatus`
shows for the tier, and the name `getNextReward` gives to its reward. -/
def tierLadder : List (String × String) :=
  [("Keep going to unlock rewards!", ""),
   ("🎉 Free Swag Kit", "Swag Kit"),
   ("🚀 LinkedIn Shoutout", "LinkedIn Shoutout"),
   ("👑 Certificate + Goodies", "Certificate + Goodies")]

/-! ## A concrete runtime

A small executable stand-in for the three libraries, used to run the model on
concrete requests: ASCII lower-casing, a hash that tags the password, and a token
that spells out its payload and the signing secret in unary. -/

/-- Each number in unary, closed by a comma. -/
def encodeNats : List Nat → List Char
  | [] => []
  | n :: ns => List.replicate n 'i' ++ ',' :: encodeNats ns

/-- Inverse of `encodeNats`; `acc` counts the marks of the number being read. -/
def decodeNats (acc : Nat) : List Char → List Nat
  | [] => []
  | c :: cs => if c = ',' then acc :: decodeNats 0 cs else decodeNats (acc + 1) cs

/-- The stand-in for `jwt.sign`. -/
def demoSign (uid : ObjectId) (email secret : String) (iat ttl : Nat) : String :=
  String.mk (encodeNats (uid :: iat :: (iat + ttl) :: secret.data.length ::
    (secret.data.map Char.toNat ++ email.data.map Char.toNat)))

/-- The stand-in for `jwt.verify`: the token must carry the secret and be unexpired. -/
def demoVerify (token secret : String) (now : Nat) : Option JwtClaims :=
  match decodeNats 0 token.data with
  | uid :: iat :: exp :: k :: rest =>
    if String.mk ((rest.take k).map Char.ofNat) = secret ∧ now < exp then
      some { userId := uid, email := String.mk ((rest.drop k).map Char.ofNat),
             iat := iat, exp := exp }
    else none
  | _ => none

/-- The stand-in for `jsonwebtoken`. -/
def demoJwt : JwtLib := { sign := demoSign, verify := demoVerify }

/-- The concrete runtime. -/
def demoRuntime : Runtime :=
  { toLowerCase := fun s => String.mk (s.data.map Char.toLower)
    bcryptHash := fun password _ => "hash:" ++ password
    bcryptCompare := fun password hash => hash == "hash:" ++ password
    jwt := demoJwt }

/-! ## Sample data -/

/-- A user record with the given id, name, email, referral code and total. -/
def mkUser (id : ObjectId) (name email : String) (code : Option String) (donations : Int) : User :=
  { _id := id, name := name, email := email, password := "hash:password123",
    referralCode := code, donationsRaised := donations,
    joiningDate := 0, createdAt := 0, updatedAt := 0 }

/-- A registered user, as signup stores it. -/
def sampleJohn : User := mkUser 1 "john doe" "john@example.com" (some "johndoe2025") 3500

/-- A document that has not been given a referral code yet. -/
def sampleUnsaved : User := mkUser 7 "Alice  Smith" "alice@example.com" none 2800

/-- The four users of the ranking example, in input order. -/
def userA : User := mkUser 1 "A" "a@example.com" (some "a2025") 5000

def userB : User := mkUser 2 "B" "b@example.com" (some "b2025") 3500

def userC : User := mkUser 3 "C" "c@example.com" (some "c2025") 3500

def userD : User := mkUser 4 "D" "d@example.com" (some "d2025") 900

/-- The store of the ranking example. -/
def sampleBoard : Store := [userA, userB, userC, userD]

/-- An answer the database may give for `sampleBoard`: the tie in the other order. -/
def sampleCursor : List User := [userA, userC, userB, userD]

/-- Twelve users with totals 1200, 1100, ..., 100, already in descending order. -/
def sampleDozen : Store :=
  (List.range 12).map fun i =>
    mkUser i "user" "user@example.com" none (1200 - 100 * (i : Int))

/-- An environment without `JWT_SECRET`. -/
def sampleEnv : Env := { JWT_SECRET := none }

/-- A login request of `sampleJohn` with the right password. -/
def sampleLogin : LoginBody :=
  { email := some "john@example.com", password := some "password123" }

/-- The outside values of a sample request. -/
def sampleFresh : Fresh := { oid := 42, salt := 0, random := 1234, nowMs := 0 }

/-- A signup request for a new user. -/
def sampleSignup : SignupBody :=
  { name := some "Alice Smith", email := some "alice@example.com", password := some "s3cret" }

/-- The user that `sampleSignup` creates in an empty store. -/
def sampleAlice : User :=
  { _id := 42, name := "Alice Smith", email := "alice@example.com",
    password := "hash:s3cret", referralCode := some "alicesmith2025",
    donationsRaised := 1234, joiningDate := 0, createdAt := 0, updatedAt := 0 }

/-- The outside values of a sample seed request. -/
def sampleSeedFresh : SeedFresh := { oid := fun i => 100 + i, salt := fun _ => 0, nowMs := 0 }

/-- The first demo user as `insertMany` stores it: without a `referralCode`. -/
def sampleSeeded : User :=
  { _id := 100, name := "Akshad Pastambh", email := "akshad@example.com",
    password := "hash:password123", referralCode := none,
    donationsRaised := 5000, joiningDate := 0, createdAt := 0, updatedAt := 0 }

/-- A signup whose name normalises to the code of `sampleJohn`, with a new email. -/
def sampleCollision : SignupBody :=
  { name := some "John Doe", email := some "jd@example.com", password := some "pw" }

/-- The payload of a token issued to `sampleAlice` at time 0. -/
def sampleAliceClaims : JwtClaims :=
  { userId := 42, email := "alice@example.com", iat := 0, exp := 86400 }

/-- The payload of a token issued to `sampleSeeded` at time 0. -/
def sampleSeededClaims : JwtClaims :=
  { userId := 100, email := "akshad@example.com", iat := 0, exp := 86400 }

/-- The document of `sampleAlice` after a donation update of -2000 at time 5000. -/
def sampleAliceOverdrawn : User :=
  { sampleAlice with donationsRaised := -766, updatedAt := 5000 }

/-- The document of `sampleAlice` after a donation update of 100 at time 5000. -/
def sampleAliceTopped : User :=
  { sampleAlice with donationsRaised := 1334, updatedAt := 5000 }

/-- A store of three users, Alice in the middle. -/
def sampleThree : Store := [sampleJohn, sampleAlice, userD]

/-- The document of `sampleSeeded` after a donation update of 100 at time 5000. -/
def sampleSeededUpdated : User :=
  { sampleSeeded with donationsRaised := 5100, updatedAt := 5000,
                      referralCode := some "akshadpastambh2025" }

/-! ## Referral code generator: theorems -/

theorem replaceWsRuns_nil (inRun : Bool) (cs : List Char) :
    replaceWsRuns [] inRun cs = cs.filter (fun c => !isJsWhitespace c) := by
  induction cs generalizing inRun with
  | nil => rfl
  | cons c cs ih =>
    by_cases h : isJsWhitespace c = true
    · simp [replaceWsRuns, h, ih]
    · simp [replaceWsRuns, h, ih]

theorem generate_eq_specGenerate (rt : Runtime) (name : String) :
    generate rt name = specGenerate rt name := by
  simp [generate, specGenerate, removeWhitespaceRuns, replaceWsRuns_nil]

/-- C1: the `pre('save')` hook gives a user without a referral code the lower-cased
name with every whitespace character removed, followed by `2025`; the code contains
no whitespace from the name, and users with the same name get the same code. -/
theorem preSave_generates_referralCode (rt : Runtime) (u : User)
    (h : truthy u.referralCode = false) :
    (preSave rt u).referralCode = some (specGenerate rt u.name) ∧
    (∀ v : User, truthy v.referralCode = false → v.name = u.name →
      (preSave rt v).referralCode = (preSave rt u).referralCode) := by
  have key : ∀ w : User, truthy w.referralCode = false →
      (preSave rt w).referralCode = some (specGenerate rt w.name) := by
    intro w hw
    simp [preSave, hw, generate_eq_specGenerate]
  refine ⟨key u h, ?_⟩
  intro v hv hname
  rw [key v hv, key u h, hname]

/-- C1 at a concrete document: `Alice  Smith` becomes `alicesmith2025`. -/
theorem preSave_generates_referralCode_witness :
    truthy sampleUnsaved.referralCode = false ∧
    (preSave demoRuntime sampleUnsaved).referralCode = some "alicesmith2025" :=
  ⟨by decide, (preSave_generates_referralCode demoRuntime sampleUnsaved (by decide)).1.trans
    (by decide)⟩

/-! ## Signup and login: theorems -/

theorem findOneByEmail_some_of_mem (s : Store) (e : String) (h : ∃ u ∈ s, u.email = e) :
    ∃ u, findOneByEmail s (some e) = some u ∧ u ∈ s ∧ u.email = e := by
  obtain ⟨u, hu, hue⟩ := h
  cases hf : s.find? (fun u => decide (u.email = e)) with
  | none =>
    have := List.find?_eq_none.mp hf u hu
    simp [hue] at this
  | some v =>
    refine ⟨v, by simpa [findOneByEmail] using hf, List.mem_of_find?_eq_some hf, ?_⟩
    simpa using List.find?_some hf

theorem findOneByEmail_none_of_forall (s : Store) (e : String) (h : ∀ u ∈ s, u.email ≠ e) :
    findOneByEmail s (some e) = none := by
  simp only [findOneByEmail]
  exact List.find?_eq_none.mpr (fun u hu => by simpa using h u hu)

theorem insertOne_ok (s s' : Store) (u : User) (h : insertOne s u = .ok s') :
    s' = s ++ [u] ∧
    ∀ v ∈ s, v._id ≠ u._id ∧ v.email ≠ u.email ∧ v.referralCode ≠ u.referralCode := by
  unfold insertOne at h
  split at h
  · cases h
  · rename_i hany
    injection h with h
    refine ⟨h.symm, ?_⟩
    intro v hv
    simp only [List.any_eq_true, not_exists, not_and] at hany
    have := hany v hv
    simpa [not_or] using this

theorem saveNew_ok (rt : Runtime) (nowMs : Nat) (s s' : Store) (d : Draft) (u : User)
    (h : saveNew rt nowMs s d = .ok (u, s')) :
    ∃ n e p, d.name = some n ∧ d.email = some e ∧ d.password = some p ∧
      u = preSave rt { _id := d._id, name := n, email := e, password := p,
                       referralCode := d.referralCode, donationsRaised := d.donationsRaised,
                       joiningDate := d.joiningDate, createdAt := nowMs, updatedAt := nowMs } ∧
      s' = s ++ [u] ∧
      ∀ v ∈ s, v._id ≠ u._id ∧ v.email ≠ u.email ∧ v.referralCode ≠ u.referralCode := by
  unfold saveNew at h
  cases hv : validate d nowMs with
  | error e => simp [hv] at h
  | ok w =>
    simp only [hv] at h
    cases hi : insertOne s (preSave rt w) with
    | error e => simp [hi] at h
    | ok t =>
      simp only [hi] at h
      injection h with h
      injection h with hu hs
      subst hu hs
      unfold validate at hv
      split at hv
      · rename_i n e p hn he hp
        split at hv
        · cases hv
        · injection hv with hv
          subst hv
          exact ⟨n, e, p, hn, he, hp, rfl, insertOne_ok _ _ _ hi⟩
      · cases hv

theorem signup_created (rt : Runtime) (env : Env) (fr : Fresh) (s : Store) (body : SignupBody)
    (h : (signup rt env fr s body).1.status = 201) :
    ∃ name email user,
      body.name = some name ∧ body.email = some email ∧
      user.name = name ∧ user.email = email ∧ user._id = fr.oid ∧
      user.referralCode = some (generate rt name) ∧
      signup rt env fr s body =
        (⟨201, .auth "User created successfully" (issueToken rt env fr.nowMs user)
          (publicUser user)⟩, s ++ [user]) ∧
      ∀ v ∈ s, v._id ≠ user._id ∧ v.email ≠ user.email ∧ v.referralCode ≠ user.referralCode := by
  unfold signup at h ⊢
  cases hf : findOneByEmail s body.email with
  | some v => simp [hf] at h
  | none =>
    simp only [hf] at h ⊢
    cases hp : body.password with
    | none => simp [hp, serverError] at h
    | some pw =>
      simp only [hp] at h ⊢
      split at h
      · simp [serverError] at h
      · rename_i r u s' hsv
        obtain ⟨n, e, p, hn, he, _, hu, hs', huniq⟩ := saveNew_ok rt fr.nowMs s s' _ u hsv
        have hcode : u.referralCode = some (generate rt n) := by
          rw [hu]; simp [preSave, truthy]
        have hname : u.name = n := by rw [hu]; simp [preSave, truthy]
        have hemail : u.email = e := by rw [hu]; simp [preSave, truthy]
        have hid : u._id = fr.oid := by rw [hu]; simp [preSave, truthy]
        exact ⟨n, e, u, hn, he, hname, hemail, hid, hcode, by rw [hs'], huniq⟩

/-- C2: when signup answers 201, the `referralCode` of the response is the code
generated from the submitted name, the new user is appended to the store, and no
user that was already stored has the same `referralCode`. -/
theorem signup_referralCode_generated_and_unique (rt : Runtime) (env : Env) (fr : Fresh)
    (s : Store) (body : SignupBody) (h : (signup rt env fr s body).1.status = 201) :
    ∃ name token user,
      body.name = some name ∧
      (signup rt env fr s body).1.body =
        .auth "User created successfully" token (publicUser user) ∧
      (publicUser user).referralCode = some (generate rt name) ∧
      (signup rt env fr s body).2 = s ++ [user] ∧
      ∀ v ∈ s, v.referralCode ≠ (publicUser user).referralCode := by
  obtain ⟨name, _, user, hn, _, _, _, _, hcode, hs, huniq⟩ := signup_created rt env fr s body h
  refine ⟨name, issueToken rt env fr.nowMs user, user, hn, by rw [hs], hcode, by rw [hs], ?_⟩
  intro v hv
  exact (huniq v hv).2.2

/-- C2 at a concrete request: Alice signs up next to John and gets `alicesmith2025`. -/
theorem signup_referralCode_generated_and_unique_witness :
    (signup demoRuntime sampleEnv sampleFresh [sampleJohn] sampleSignup).1.status = 201 ∧
    ∃ name token user,
      sampleSignup.name = some name ∧
      (signup demoRuntime sampleEnv sampleFresh [sampleJohn] sampleSignup).1.body =
        .auth "User created successfully" token (publicUser user) ∧
      (publicUser user).referralCode = some (generate demoRuntime name) ∧
      (signup demoRuntime sampleEnv sampleFresh [sampleJohn] sampleSignup).2 =
        [sampleJohn] ++ [user] ∧
      ∀ v ∈ [sampleJohn], v.referralCode ≠ (publicUser user).referralCode :=
  ⟨by decide, signup_referralCode_generated_and_unique demoRuntime sampleEnv sampleFresh
    [sampleJohn] sampleSignup (by decide)⟩

/-- C3: signing up with an email that a stored user already has answers 400 with the
body `error: 'User already exists'`, whatever the name and the password (present
or absent), and leaves the store as it was. -/
theorem signup_duplicate_email_rejected (rt : Runtime) (env : Env) (fr : Fresh) (s : Store)
    (e : String) (name password : Option String) (h : ∃ u ∈ s, u.email = e) :
    signup rt env fr s { name := name, email := some e, password := password } =
      (⟨400, .error "User already exists"⟩, s) := by
  obtain ⟨u, hu, _, _⟩ := findOneByEmail_some_of_mem s e h
  simp [signup, hu]

/-- C3 at a concrete request: a second signup with John's email. -/
theorem signup_duplicate_email_rejected_witness :
    (∃ u ∈ [sampleJohn], u.email = "john@example.com") ∧
    signup demoRuntime sampleEnv sampleFresh [sampleJohn]
        { name := some "Johnny", email := some "john@example.com", password := some "other" } =
      (⟨400, .error "User already exists"⟩, [sampleJohn]) :=
  ⟨⟨sampleJohn, by simp, by decide⟩,
   signup_duplicate_email_rejected demoRuntime sampleEnv sampleFresh [sampleJohn]
     "john@example.com" (some "Johnny") (some "other") ⟨sampleJohn, by simp, by decide⟩⟩

/-- C4: a login whose email belongs to no user (with any password, or none) and a
login with an existing user's email and a password that `bcrypt.compare` rejects
get the same response, status 400 with the body `error: 'Invalid credentials'`,
and neither changes the store. -/
theorem login_failures_indistinguishable (rt : Runtime) (env : Env) (fr fr' : Fresh) (s : Store)
    (unknown : String) (anyPassword : Option String) (known wrongPassword : String)
    (hunknown : ∀ u ∈ s, u.email ≠ unknown)
    (hknown : ∃ u ∈ s, u.email = known)
    (hwrong : ∀ u ∈ s, u.email = known → rt.bcryptCompare wrongPassword u.password = false) :
    login rt env fr s { email := some unknown, password := anyPassword } =
      (⟨400, .error "Invalid credentials"⟩, s) ∧
    login rt env fr' s { email := some known, password := some wrongPassword } =
      (⟨400, .error "Invalid credentials"⟩, s) := by
  constructor
  · simp [login, findOneByEmail_none_of_forall s unknown hunknown]
  · obtain ⟨u, hu, hmem, hue⟩ := findOneByEmail_some_of_mem s known hknown
    simp [login, hu, hwrong u hmem hue]

/-- C4 at concrete requests: an unknown email and John's email with a wrong password. -/
theorem login_failures_indistinguishable_witness :
    login demoRuntime sampleEnv sampleFresh [sampleJohn]
        { email := some "nobody@example.com", password := some "password123" } =
      (⟨400, .error "Invalid credentials"⟩, [sampleJohn]) ∧
    login demoRuntime sampleEnv sampleFresh [sampleJohn]
        { email := some "john@example.com", password := some "guess" } =
      (⟨400, .error "Invalid credentials"⟩, [sampleJohn]) :=
  login_failures_indistinguishable demoRuntime sampleEnv sampleFresh sampleFresh [sampleJohn]
    "nobody@example.com" (some "password123") "john@example.com" "guess"
    (by decide) (by decide) (by decide)

/-! ## Ranking: theorems -/

/-- The database contract can always be met: the stable descending sort of the
collection is an admissible cursor. -/
theorem stableSortDesc_admissible (s : Store) : MongoSortedDesc s (stableSortDesc s) :=
  ⟨List.perm_insertionSort donationsGe s, List.sorted_insertionSort donationsGe s⟩

theorem leaderboardEntries_length (users : List User) :
    (leaderboardEntries users).length = users.length := by
  simp [leaderboardEntries]

theorem leaderboardEntries_getElem? (users : List User) (i : Nat) :
    (leaderboardEntries users)[i]? =
      (users[i]?).map fun u =>
        { rank := i + 1, name := u.name, referralCode := u.referralCode,
          donationsRaised := u.donationsRaised } := by
  simp [leaderboardEntries]

theorem leaderboardEntries_map_donations (users : List User) :
    (leaderboardEntries users).map (fun e => e.donationsRaised) =
      users.map (fun u => u.donationsRaised) := by
  apply List.ext_getElem?
  intro i
  simp [leaderboardEntries_getElem?, Function.comp_def]

theorem leaderboardEntries_map_name (users : List User) :
    (leaderboardEntries users).map (fun e => e.name) = users.map (fun u => u.name) := by
  apply List.ext_getElem?
  intro i
  simp [leaderboardEntries_getElem?, Function.comp_def]

theorem leaderboardEntries_map_rank (users : List User) :
    (leaderboardEntries users).map (fun e => e.rank) = List.range' 1 users.length := by
  apply List.ext_getElem?
  intro i
  simp only [List.getElem?_map, leaderboardEntries_getElem?, Option.map_map]
  by_cases h : i < users.length
  · rw [List.getElem?_eq_getElem h, List.getElem?_eq_getElem (by simpa using h)]
    simp [Nat.add_comm]
  · rw [List.getElem?_eq_none (by omega), List.getElem?_eq_none (by simp; omega)]
    rfl

theorem sorted_map_donations (users : List User) (h : users.Sorted donationsGe) :
    (users.map (fun u => u.donationsRaised)).Sorted (fun a b => a ≥ b) := by
  unfold List.Sorted at h ⊢
  rw [List.pairwise_map]
  exact h

theorem sampleBoard_cursors :
    ∀ c ∈ sampleBoard.permutations', c.Sorted donationsGe →
      c.map (fun u => u.name) = ["A", "B", "C", "D"] ∨
      c.map (fun u => u.name) = ["A", "C", "B", "D"] := by
  decide

/-- C5, as the code has it: whatever order the database gives to users with equal
totals, the leaderboard lists users of the store in descending order of
`donationsRaised` (totals never increase from one entry to the next); for the store
A(5000), B(3500), C(3500), D(900) the output is A, then B and C in either order,
then D. -/
theorem leaderboard_descending (s : Store) (cursor : List User) (h : MongoSortedDesc s cursor) :
    ∃ entries,
      (leaderboardHandler cursor s).1 = ⟨200, .leaderboard entries⟩ ∧
      (entries.map fun e => e.donationsRaised).Sorted (fun a b => a ≥ b) ∧
      (s = sampleBoard →
        entries.map (fun e => e.name) = ["A", "B", "C", "D"] ∨
        entries.map (fun e => e.name) = ["A", "C", "B", "D"]) := by
  refine ⟨leaderboardEntries (cursor.take 10), rfl, ?_, ?_⟩
  · rw [leaderboardEntries_map_donations]
    exact sorted_map_donations _ (h.2.sublist (List.take_sublist 10 cursor))
  · intro hs
    subst hs
    have hlen : cursor.length = 4 := h.1.length_eq
    have htake : cursor.take 10 = cursor := List.take_of_length_le (by omega)
    rw [htake, leaderboardEntries_map_name]
    exact sampleBoard_cursors cursor (List.mem_permutations'.mpr h.1) h.2

/-- C5 at the example store, with the database answering in input order. -/
theorem leaderboard_descending_witness :
    MongoSortedDesc sampleBoard sampleBoard ∧
    ∃ entries,
      (leaderboardHandler sampleBoard sampleBoard).1 = ⟨200, .leaderboard entries⟩ ∧
      (entries.map fun e => e.donationsRaised).Sorted (fun a b => a ≥ b) ∧
      (sampleBoard = sampleBoard →
        entries.map (fun e => e.name) = ["A", "B", "C", "D"] ∨
        entries.map (fun e => e.name) = ["A", "C", "B", "D"]) :=
  ⟨⟨List.Perm.refl _, by decide⟩,
   leaderboard_descending sampleBoard sampleBoard ⟨List.Perm.refl _, by decide⟩⟩

/-- C5 as stated fails: for the store A(5000), B(3500), C(3500), D(900), in that
order, the cursor A, C, B, D meets the database contract, and the leaderboard then
ranks C second and B third, against the stable order A, B, C, D. -/
theorem leaderboard_tie_order_not_stable :
    MongoSortedDesc sampleBoard sampleCursor ∧
    (leaderboardHandler sampleCursor sampleBoard).1 =
      ⟨200, .leaderboard
        [⟨1, "A", some "a2025", 5000⟩, ⟨2, "C", some "c2025", 3500⟩,
         ⟨3, "B", some "b2025", 3500⟩, ⟨4, "D", some "d2025", 900⟩]⟩ ∧
    stableSortDesc sampleBoard = [userA, userB, userC, userD] ∧
    sampleCursor ≠ stableSortDesc sampleBoard := by
  refine ⟨⟨?_, by decide⟩, by decide, by decide, by decide⟩
  exact List.Perm.cons _ (List.Perm.swap _ _ _)

/-- C6: the entry at position `i` of the leaderboard has rank `i + 1`, so the ranks
are `1, 2, ..., k` whatever the totals are, and it carries the name, referral code
and total of the user at position `i` of the ordering. -/
theorem leaderboard_ranks_dense (cursor : List User) (s : Store) :
    ∃ entries,
      (leaderboardHandler cursor s).1 = ⟨200, .leaderboard entries⟩ ∧
      entries.length = (cursor.take 10).length ∧
      entries.map (fun e => e.rank) = List.range' 1 entries.length ∧
      ∀ i : Nat, entries[i]? =
        ((cursor.take 10)[i]?).map fun u =>
          { rank := i + 1, name := u.name, referralCode := u.referralCode,
            donationsRaised := u.donationsRaised } := by
  refine ⟨leaderboardEntries (cursor.take 10), rfl, leaderboardEntries_length _, ?_, ?_⟩
  · rw [leaderboardEntries_map_rank, leaderboardEntries_length]
  · exact leaderboardEntries_getElem? _

/-- C7: the leaderboard has `min n 10` entries for a store of `n` users; the users
listed together with the users left out are exactly the users of the store, and
no user left out has a larger total than a listed one. -/
theorem leaderboard_top_ten (s : Store) (cursor : List User) (h : MongoSortedDesc s cursor) :
    ∃ entries listed rest,
      (leaderboardHandler cursor s).1 = ⟨200, .leaderboard entries⟩ ∧
      entries = leaderboardEntries listed ∧
      entries.length = min s.length 10 ∧
      (listed ++ rest).Perm s ∧
      (∀ u ∈ rest, ∀ v ∈ listed, u.donationsRaised ≤ v.donationsRaised) ∧
      (∀ u ∈ rest, ∀ e ∈ entries, u.donationsRaised ≤ e.donationsRaised) := by
  have hsplit : ∀ u ∈ cursor.drop 10, ∀ v ∈ cursor.take 10,
      u.donationsRaised ≤ v.donationsRaised := by
    have hs : (cursor.take 10 ++ cursor.drop 10).Sorted donationsGe := by
      rw [List.take_append_drop]; exact h.2
    intro u hu v hv
    exact (List.pairwise_append.mp hs).2.2 v hv u hu
  refine ⟨leaderboardEntries (cursor.take 10), cursor.take 10, cursor.drop 10, rfl, rfl,
    ?_, ?_, hsplit, ?_⟩
  · rw [leaderboardEntries_length, List.length_take, h.1.length_eq, Nat.min_comm]
  · rw [List.take_append_drop]; exact h.1
  · intro u hu e he
    have hmem : e.donationsRaised ∈
        (leaderboardEntries (cursor.take 10)).map (fun e => e.donationsRaised) :=
      List.mem_map.mpr ⟨e, he, rfl⟩
    rw [leaderboardEntries_map_donations] at hmem
    obtain ⟨v, hv, hve⟩ := List.mem_map.mp hmem
    rw [← hve]
    exact hsplit u hu v hv

/-- C7 at a store of twelve users: ten are listed. -/
theorem leaderboard_top_ten_witness :
    MongoSortedDesc sampleDozen sampleDozen ∧
    ∃ entries listed rest,
      (leaderboardHandler sampleDozen sampleDozen).1 = ⟨200, .leaderboard entries⟩ ∧
      entries = leaderboardEntries listed ∧
      entries.length = min sampleDozen.length 10 ∧
      (listed ++ rest).Perm sampleDozen ∧
      (∀ u ∈ rest, ∀ v ∈ listed, u.donationsRaised ≤ v.donationsRaised) ∧
      (∀ u ∈ rest, ∀ e ∈ entries, u.donationsRaised ≤ e.donationsRaised) :=
  ⟨⟨List.Perm.refl _, by decide⟩,
   leaderboard_top_ten sampleDozen sampleDozen ⟨List.Perm.refl _, by decide⟩⟩

/-! ## Numbers: theorems -/

theorem droppedBits_of_lt (fuel a : Nat) (h : a < 9007199254740992) :
    droppedBits fuel a = 0 := by
  cases fuel with
  | zero => rfl
  | succ f => simp [droppedBits, h]

theorem roundDoubleNat_of_lt (a : Nat) (h : a < 9007199254740992) : roundDoubleNat a = a := by
  simp [roundDoubleNat, droppedBits_of_lt a a h, Nat.mod_one]

theorem droppedBits_spec (fuel a : Nat) (hf : a ≤ fuel) (ha : 9007199254740992 ≤ a) :
    1 ≤ droppedBits fuel a ∧ 4503599627370496 ≤ a / 2 ^ droppedBits fuel a := by
  induction fuel generalizing a with
  | zero => omega
  | succ f ih =>
    have hnot : ¬ a < 9007199254740992 := by omega
    simp only [droppedBits, hnot, if_false]
    refine ⟨by omega, ?_⟩
    have e : ∀ k : Nat, a / 2 ^ (k + 1) = a / 2 / 2 ^ k := by
      intro k
      rw [Nat.pow_succ, Nat.mul_comm, Nat.div_div_eq_div_mul]
    rw [e]
    by_cases h2 : a / 2 < 9007199254740992
    · rw [droppedBits_of_lt f (a / 2) h2]
      simp only [Nat.pow_zero, Nat.div_one]
      omega
    · exact (ih (a / 2) (by omega) (by omega)).2

theorem roundDoubleNat_ge (a : Nat) (ha : 9007199254740992 ≤ a) :
    9007199254740992 ≤ roundDoubleNat a := by
  obtain ⟨h1, h2⟩ := droppedBits_spec a a (Nat.le_refl a) ha
  unfold roundDoubleNat
  simp only
  generalize droppedBits a a = k at h1 h2
  have hk : 2 ≤ 2 ^ k := by
    calc 2 = 2 ^ 1 := by norm_num
      _ ≤ 2 ^ k := Nat.pow_le_pow_right (by decide) h1
  have hq : a / 2 ^ k ≤ (if 2 * (a % 2 ^ k) > 2 ^ k ∨ 2 * (a % 2 ^ k) = 2 ^ k ∧ a / 2 ^ k % 2 = 1
      then a / 2 ^ k + 1 else a / 2 ^ k) := by
    split <;> omega
  calc 9007199254740992 = 4503599627370496 * 2 := by norm_num
    _ ≤ (a / 2 ^ k) * 2 ^ k := Nat.mul_le_mul h2 hk
    _ ≤ _ := Nat.mul_le_mul_right _ hq

theorem roundDoubleNat_pos (a : Nat) (h : 0 < a) : 0 < roundDoubleNat a := by
  by_cases hlt : a < 9007199254740992
  · rw [roundDoubleNat_of_lt a hlt]; exact h
  · have := roundDoubleNat_ge a (by omega)
    omega

theorem roundDouble_of_lt (x : Int) (h : x.natAbs < 9007199254740992) : roundDouble x = x := by
  unfold roundDouble
  rw [roundDoubleNat_of_lt _ h]
  split <;> omega

theorem roundDouble_nonneg (x : Int) (h : 0 ≤ x) : 0 ≤ roundDouble x := by
  unfold roundDouble
  have : ¬ x < 0 := by omega
  simp only [this, if_false]
  exact Int.ofNat_nonneg _

theorem roundDouble_pos (x : Int) (h : 0 < x) : 0 < roundDouble x := by
  unfold roundDouble
  have : ¬ x < 0 := by omega
  simp only [this, if_false]
  have := roundDoubleNat_pos x.natAbs (by omega)
  omega

theorem shortestDecimal_of_lt (a j : Nat) (h : a < 9007199254740992) :
    shortestDecimal a j = a := by
  induction j with
  | zero => rfl
  | succ j ih =>
    simp only [shortestDecimal]
    split
    · rename_i hc
      by_cases hlt : nearestMultiple (10 ^ (j + 1)) a < 9007199254740992
      · rw [roundDoubleNat_of_lt _ hlt] at hc
        exact hc.2
      · have := roundDoubleNat_ge _ (Nat.le_of_not_lt hlt)
        omega
    · exact ih

theorem numberToStringNat_of_lt (a : Nat) (h : a < 9007199254740992) :
    numberToStringNat a = toString a := by
  have h21 : a < 10 ^ 21 := by
    have : (9007199254740992 : Nat) < 10 ^ 21 := by norm_num
    omega
  unfold numberToStringNat
  simp only [shortestDecimal_of_lt a _ h]
  rw [if_pos h21]

theorem numberToString_of_nonneg_lt (x : Int) (h0 : 0 ≤ x) (h : x.natAbs < 9007199254740992) :
    numberToString x = toString x := by
  unfold numberToString
  have hneg : ¬ x < 0 := by omega
  simp only [hneg, if_false]
  rw [numberToStringNat_of_lt _ h]
  obtain ⟨n, rfl⟩ := Int.eq_ofNat_of_zero_le h0
  rfl

theorem numberSub_text_exact (t amount : Int) (hpos : 0 < t - amount)
    (hsafe : t - amount ≤ (maxSafeInteger : Int)) :
    numberSub t amount = t - amount ∧
    numberToString (numberSub t amount) = toString (t - amount) := by
  have hlt : (t - amount).natAbs < 9007199254740992 := by
    simp only [maxSafeInteger] at hsafe
    omega
  have hsub : numberSub t amount = t - amount := roundDouble_of_lt _ hlt
  exact ⟨hsub, by rw [hsub]; exact numberToString_of_nonneg_lt _ (by omega) hlt⟩

/-! ## Reward tiers: theorems -/

/-- C8: `getRewardStatus` gives Certificate + Goodies from 5000 on, LinkedIn Shoutout
from 2500 to 4999, Swag Kit from 1000 to 2499 and no reward below 1000; the
thresholds are inclusive, as the values at 999, 1000, 2500 and 5000 show. -/
theorem getRewardStatus_tiers (amount : Int) :
    (5000 ≤ amount →
      getRewardStatus amount = { text := "👑 Certificate + Goodies", unlocked := true }) ∧
    (2500 ≤ amount ∧ amount < 5000 →
      getRewardStatus amount = { text := "🚀 LinkedIn Shoutout", unlocked := true }) ∧
    (1000 ≤ amount ∧ amount < 2500 →
      getRewardStatus amount = { text := "🎉 Free Swag Kit", unlocked := true }) ∧
    (amount < 1000 →
      getRewardStatus amount =
        { text := "Keep going to unlock rewards!", unlocked := false }) ∧
    (getRewardStatus 999).unlocked = false ∧
    getRewardStatus 1000 = { text := "🎉 Free Swag Kit", unlocked := true } ∧
    getRewardStatus 2500 = { text := "🚀 LinkedIn Shoutout", unlocked := true } ∧
    getRewardStatus 5000 = { text := "👑 Certificate + Goodies", unlocked := true } := by
  refine ⟨?_, ?_, ?_, ?_, by decide, by decide, by decide, by decide⟩
  · intro h
    simp [getRewardStatus, h]
  · rintro ⟨h1, h2⟩
    have : ¬ (5000 ≤ amount) := by omega
    simp [getRewardStatus, h1, this]
  · rintro ⟨h1, h2⟩
    have h5 : ¬ (5000 ≤ amount) := by omega
    have h25 : ¬ (2500 ≤ amount) := by omega
    simp [getRewardStatus, h1, h5, h25]
  · intro h
    have h5 : ¬ (5000 ≤ amount) := by omega
    have h25 : ¬ (2500 ≤ amount) := by omega
    have h1 : ¬ (1000 ≤ amount) := by omega
    simp [getRewardStatus, h1, h5, h25]

/-- C9, as the code has it: below 5000, and as long as the gap is a safe integer
(`1000 - amount ≤ 2 ^ 53 - 1`), `getNextReward` reports the gap `t - amount` to the
smallest threshold `t` of 1000, 2500, 5000 that `amount` has not reached, with that
reward's name; the gap is positive and `amount + gap = t`.  From 5000 on it reports
no gap but that all rewards are unlocked. -/
theorem getNextReward_gap (amount : Int) :
    (amount < 5000 → 1000 - amount ≤ (maxSafeInteger : Int) →
      ∃ t label gap,
        nextThreshold amount = some (t, label) ∧
        (t, label) ∈ rewardThresholds ∧ amount < t ∧
        (∀ p ∈ rewardThresholds, amount < p.1 → t ≤ p.1) ∧
        gap = t - amount ∧ 0 < gap ∧ amount + gap = t ∧
        getNextReward amount = "₹" ++ toString gap ++ (" more for " ++ label)) ∧
    (5000 ≤ amount →
      nextThreshold amount = none ∧ getNextReward amount = "All rewards unlocked! 🎉") := by
  constructor
  · intro h hsafe
    by_cases h1 : amount < 1000
    · refine ⟨1000, "Swag Kit", 1000 - amount, ?_, by decide, h1, ?_, rfl, by omega, by omega, ?_⟩
      · simp [nextThreshold, rewardThresholds, h1]
      · intro p hp hlt
        simp [rewardThresholds] at hp
        rcases hp with rfl | rfl | rfl <;> simp
      · simp only [getNextReward, h1, if_true]
        rw [(numberSub_text_exact 1000 amount (by omega) hsafe).2]
        rfl
    · have hsmall : ∀ t : Int, t ≤ 5000 → t - amount ≤ (maxSafeInteger : Int) := by
        intro t ht
        simp only [maxSafeInteger]
        omega
      by_cases h2 : amount < 2500
      · refine ⟨2500, "LinkedIn Shoutout", 2500 - amount, ?_, by decide, h2, ?_, rfl,
          by omega, by omega, ?_⟩
        · simp [nextThreshold, rewardThresholds, h1, h2]
        · intro p hp hlt
          simp [rewardThresholds] at hp
          rcases hp with rfl | rfl | rfl
          · exact absurd hlt h1
          · simp
          · simp
        · simp only [getNextReward, h1, h2, if_true, if_false]
          rw [(numberSub_text_exact 2500 amount (by omega) (hsmall 2500 (by omega))).2]
          rfl
      · refine ⟨5000, "Certificate + Goodies", 5000 - amount, ?_, by decide, h, ?_, rfl,
          by omega, by omega, ?_⟩
        · simp [nextThreshold, rewardThresholds, h1, h2, h]
        · intro p hp hlt
          simp [rewardThresholds] at hp
          rcases hp with rfl | rfl | rfl
          · exact absurd hlt h1
          · exact absurd hlt h2
          · simp
        · simp only [getNextReward, h1, h2, h, if_true, if_false]
          rw [(numberSub_text_exact 5000 amount (by omega) (hsmall 5000 (by omega))).2]
          rfl
  · intro h
    have h1 : ¬ amount < 1000 := by omega
    have h2 : ¬ amount < 2500 := by omega
    have h3 : ¬ amount < 5000 := by omega
    exact ⟨by simp [nextThreshold, rewardThresholds, h1, h2, h3],
      by simp [getNextReward, h1, h2, h3]⟩

/-- C9 at concrete amounts: 999 is 1 short of the Swag Kit, a total of -766 is 1766
short of it. -/
theorem getNextReward_gap_witness :
    getNextReward 999 = "₹1 more for Swag Kit" ∧
    getNextReward (-766) = "₹1766 more for Swag Kit" ∧
    ∃ t label gap,
      nextThreshold 999 = some (t, label) ∧
      (t, label) ∈ rewardThresholds ∧ (999 : Int) < t ∧
      (∀ p ∈ rewardThresholds, (999 : Int) < p.1 → t ≤ p.1) ∧
      gap = t - 999 ∧ 0 < gap ∧ 999 + gap = t ∧
      getNextReward 999 = "₹" ++ toString gap ++ (" more for " ++ label) :=
  ⟨by decide, by decide, (getNextReward_gap 999).1 (by decide) (by decide)⟩

/-- C9 as stated fails: the total -10^21, which a donation update can store, is below
5000 and the smallest threshold it has not reached is 1000, but the difference is
taken in doubles: `1000 - amount` is not representable and rounds to `10 ^ 21`,
printed `1e+21`; the reported gap is not `t - amount`, and `amount + gap` is 0. -/
theorem getNextReward_gap_rounded :
    nextThreshold (-1000000000000000000000) = some (1000, "Swag Kit") ∧
    getNextReward (-1000000000000000000000) = "₹1e+21 more for Swag Kit" ∧
    numberSub 1000 (-1000000000000000000000) = 1000000000000000000000 ∧
    numberSub 1000 (-1000000000000000000000) ≠ 1000 - (-1000000000000000000000) ∧
    (-1000000000000000000000 : Int) + numberSub 1000 (-1000000000000000000000) ≠ 1000 := by
  refine ⟨by decide, by decide, by decide, by decide, by decide⟩

/-! ## Session tokens: theorems -/

theorem splitChars_of_not_mem (sep : Char) (cs : List Char) (h : sep ∉ cs) :
    splitChars sep cs = [cs] := by
  induction cs with
  | nil => rfl
  | cons c cs ih =>
    have hc : c ≠ sep := fun hc => h (by simp [hc])
    have hcs : sep ∉ cs := fun hm => h (List.mem_cons_of_mem _ hm)
    simp [splitChars, hc, ih hcs]

theorem splitChars_append_sep (sep : Char) (a b : List Char) (h : sep ∉ a) :
    splitChars sep (a ++ sep :: b) = a :: splitChars sep b := by
  induction a with
  | nil => simp [splitChars]
  | cons c cs ih =>
    have hc : c ≠ sep := fun hc => h (by simp [hc])
    have hcs : sep ∉ cs := fun hm => h (List.mem_cons_of_mem _ hm)
    simp [splitChars, hc, ih hcs]

theorem extractToken_bearer (token : String) (h : ' ' ∉ token.data) :
    extractToken (some ("Bearer " ++ token)) = some token := by
  have hne : "Bearer " ++ token ≠ "" := by
    intro hcontra
    have := congrArg String.length hcontra
    simp only [String.length_append] at this
    have h7 : "Bearer ".length = 7 := by decide
    have h0 : "".length = 0 := by decide
    omega
  have hdata : ("Bearer " ++ token).data = "Bearer".data ++ ' ' :: token.data := by
    simp [String.data_append]
  have hsplit : jsSplitSpace ("Bearer " ++ token) = ["Bearer", token] := by
    unfold jsSplitSpace
    rw [hdata, splitChars_append_sep ' ' _ _ (by decide), splitChars_of_not_mem ' ' _ h]
    rfl
  simp [extractToken, hne, hsplit]

theorem authenticateToken_issued (rt : Runtime) (env : Env) (hjwt : JwtLawful rt.jwt)
    (u : User) (issuedMs nowMs : Nat) (hexp : nowMs / 1000 < issuedMs / 1000 + 86400) :
    authenticateToken rt env nowMs (some ("Bearer " ++ issueToken rt env issuedMs u)) =
      .ok { userId := u._id, email := u.email, iat := issuedMs / 1000,
            exp := issuedMs / 1000 + 86400 } := by
  have hns := hjwt.sign_no_space u._id u.email (jwtSecret env) (issuedMs / 1000) 86400
  have hne := hjwt.sign_ne_empty u._id u.email (jwtSecret env) (issuedMs / 1000) 86400
  have hv := hjwt.verify_sign u._id u.email (jwtSecret env) (issuedMs / 1000) 86400
    (nowMs / 1000) hexp
  unfold authenticateToken
  rw [extractToken_bearer _ (by simpa [issueToken] using hns)]
  simp only [issueToken, truthy, Option.getD_some, hv]
  simp [hne]

theorem login_ok (rt : Runtime) (env : Env) (fr : Fresh) (s : Store) (body : LoginBody)
    (h : (login rt env fr s body).1.status = 200) :
    ∃ user, findOneByEmail s body.email = some user ∧
      login rt env fr s body =
        (⟨200, .auth "Login successful" (issueToken rt env fr.nowMs user) (publicUser user)⟩,
          s) := by
  unfold login at h ⊢
  cases hf : findOneByEmail s body.email with
  | none => simp [hf] at h
  | some user =>
    simp only [hf] at h ⊢
    cases hp : body.password with
    | none => simp [hp, serverError] at h
    | some pw =>
      simp only [hp] at h ⊢
      by_cases hc : rt.bcryptCompare pw user.password = true
      · exact ⟨user, rfl, by simp [hc]⟩
      · simp [hc] at h

theorem decodeNats_replicate (acc n : Nat) (rest : List Char) :
    decodeNats acc (List.replicate n 'i' ++ ',' :: rest) = (acc + n) :: decodeNats 0 rest := by
  induction n generalizing acc with
  | zero => simp [decodeNats]
  | succ n ih =>
    have hi : ('i' = ',') = False := by decide
    have hstep : decodeNats acc (List.replicate (n + 1) 'i' ++ ',' :: rest) =
        decodeNats (acc + 1) (List.replicate n 'i' ++ ',' :: rest) := by
      simp [List.replicate_succ, decodeNats, hi]
    rw [hstep, ih]
    congr 1
    omega

theorem decodeNats_encodeNats (ns : List Nat) : decodeNats 0 (encodeNats ns) = ns := by
  induction ns with
  | nil => rfl
  | cons n ns ih => simp [encodeNats, decodeNats_replicate, ih]

theorem encodeNats_chars (ns : List Nat) : ∀ c ∈ encodeNats ns, c = 'i' ∨ c = ',' := by
  induction ns with
  | nil => simp [encodeNats]
  | cons n ns ih =>
    intro c hc
    simp only [encodeNats, List.mem_append, List.mem_cons, List.mem_replicate] at hc
    rcases hc with ⟨_, h⟩ | h | h
    · exact Or.inl h
    · exact Or.inr h
    · exact ih c h

theorem map_ofNat_toNat (cs : List Char) : (cs.map Char.toNat).map Char.ofNat = cs := by
  induction cs with
  | nil => rfl
  | cons c cs ih => simp [ih, Char.ofNat_toNat]

/-- The stand-in for `jsonwebtoken` meets the contract. -/
theorem demoJwt_lawful : JwtLawful demoJwt where
  sign_ne_empty := by
    intro uid email secret iat ttl h
    have := congrArg String.data h
    simp [demoJwt, demoSign, encodeNats] at this
  sign_no_space := by
    intro uid email secret iat ttl h
    rcases encodeNats_chars _ _ h with h | h <;> exact absurd h (by decide)
  verify_sign := by
    intro uid email secret iat ttl now hnow
    simp only [demoJwt, demoVerify, demoSign, decodeNats_encodeNats]
    have hk : secret.data.length = (secret.data.map Char.toNat).length := by simp
    have htake : ((secret.data.map Char.toNat ++ email.data.map Char.toNat).take
        secret.data.length).map Char.ofNat = secret.data := by
      rw [hk, List.take_left, map_ofNat_toNat]
    have hdrop : ((secret.data.map Char.toNat ++ email.data.map Char.toNat).drop
        secret.data.length).map Char.ofNat = email.data := by
      rw [hk, List.drop_left, map_ofNat_toNat]
    rw [htake, hdrop]
    simp [hnow]

/-- C10: under a `jsonwebtoken` that meets its contract, the token of a 201 signup
response and the token of a 200 login response, sent as `Bearer <token>` to
`authenticateToken` under the same environment before the 24 hours are over, are
accepted, and `req.user` carries the `userId` and `email` of the user they were
issued for. -/
theorem issued_token_authenticates (rt : Runtime) (env : Env) (hjwt : JwtLawful rt.jwt)
    (fr : Fresh) (s : Store) :
    (∀ body : SignupBody, (signup rt env fr s body).1.status = 201 →
      ∃ message token user,
        (signup rt env fr s body).1.body = .auth message token user ∧
        ∀ nowMs : Nat, nowMs / 1000 < fr.nowMs / 1000 + 86400 →
          ∃ claims, authenticateToken rt env nowMs (some ("Bearer " ++ token)) = .ok claims ∧
            claims.userId = user.id ∧ claims.email = user.email ∧
            some claims.email = body.email) ∧
    (∀ body : LoginBody, (login rt env fr s body).1.status = 200 →
      ∃ message token user,
        (login rt env fr s body).1.body = .auth message token user ∧
        ∀ nowMs : Nat, nowMs / 1000 < fr.nowMs / 1000 + 86400 →
          ∃ claims, authenticateToken rt env nowMs (some ("Bearer " ++ token)) = .ok claims ∧
            claims.userId = user.id ∧ claims.email = user.email ∧
            some claims.email = body.email) := by
  constructor
  · intro body h
    obtain ⟨name, email, user, _, he, _, hue, _, _, hs, _⟩ := signup_created rt env fr s body h
    refine ⟨_, issueToken rt env fr.nowMs user, publicUser user, by rw [hs], ?_⟩
    intro nowMs hnow
    exact ⟨_, authenticateToken_issued rt env hjwt user fr.nowMs nowMs hnow, rfl, rfl,
      by simp [he, hue]⟩
  · intro body h
    obtain ⟨user, hf, hl⟩ := login_ok rt env fr s body h
    refine ⟨_, issueToken rt env fr.nowMs user, publicUser user, by rw [hl], ?_⟩
    intro nowMs hnow
    refine ⟨_, authenticateToken_issued rt env hjwt user fr.nowMs nowMs hnow, rfl, rfl, ?_⟩
    cases hb : body.email with
    | none => simp [hb, findOneByEmail] at hf
    | some e =>
      rw [hb] at hf
      have := List.find?_some hf
      simpa using this.symm

/-- C10 at concrete requests: the tokens of Alice's signup and of John's login are
accepted during the following 24 hours. -/
theorem issued_token_authenticates_witness :
    (∃ message token user,
      (signup demoRuntime sampleEnv sampleFresh [sampleJohn] sampleSignup).1.body =
        .auth message token user ∧
      ∀ nowMs : Nat, nowMs / 1000 < sampleFresh.nowMs / 1000 + 86400 →
        ∃ claims,
          authenticateToken demoRuntime sampleEnv nowMs (some ("Bearer " ++ token)) =
            .ok claims ∧
          claims.userId = user.id ∧ claims.email = user.email ∧
          some claims.email = sampleSignup.email) ∧
    (∃ message token user,
      (login demoRuntime sampleEnv sampleFresh [sampleJohn] sampleLogin).1.body =
        .auth message token user ∧
      ∀ nowMs : Nat, nowMs / 1000 < sampleFresh.nowMs / 1000 + 86400 →
        ∃ claims,
          authenticateToken demoRuntime sampleEnv nowMs (some ("Bearer " ++ token)) =
            .ok claims ∧
          claims.userId = user.id ∧ claims.email = user.email ∧
          some claims.email = sampleLogin.email) :=
  ⟨(issued_token_authenticates demoRuntime sampleEnv demoJwt_lawful sampleFresh
      [sampleJohn]).1 sampleSignup (by decide),
   (issued_token_authenticates demoRuntime sampleEnv demoJwt_lawful sampleFresh
      [sampleJohn]).2 sampleLogin (by decide)⟩

/-! ## Unauthorized requests: theorems -/

theorem withAuth_no_token (rt : Runtime) (env : Env) (nowMs : Nat)
    (authorization : Option String) (handler : JwtClaims → Store → Response × Store)
    (s : Store) (h : truthy (extractToken authorization) = false) :
    withAuth rt env nowMs authorization handler s =
      (⟨401, .error "Access token required"⟩, s) := by
  simp [withAuth, authenticateToken, h]

theorem withAuth_verify_fails (rt : Runtime) (env : Env) (nowMs : Nat)
    (authorization : Option String) (handler : JwtClaims → Store → Response × Store)
    (s : Store) (token : String) (ht : extractToken authorization = some token)
    (hne : token ≠ "")
    (hv : rt.jwt.verify token (jwtSecret env) (nowMs / 1000) = none) :
    withAuth rt env nowMs authorization handler s = (⟨403, .error "Invalid token"⟩, s) := by
  simp [withAuth, authenticateToken, ht, truthy, hne, hv]

theorem withAuth_issued (rt : Runtime) (env : Env) (hjwt : JwtLawful rt.jwt) (u : User)
    (issuedMs nowMs : Nat) (hexp : nowMs / 1000 < issuedMs / 1000 + 86400)
    (handler : JwtClaims → Store → Response × Store) (s : Store) :
    withAuth rt env nowMs (some ("Bearer " ++ issueToken rt env issuedMs u)) handler s =
      handler { userId := u._id, email := u.email, iat := issuedMs / 1000,
                exp := issuedMs / 1000 + 86400 } s := by
  simp [withAuth, authenticateToken_issued rt env hjwt u issuedMs nowMs hexp]

/-- The stand-in for `jsonwebtoken` refuses expired and wrongly signed tokens. -/
theorem demoJwt_rejects : JwtRejects demoJwt where
  verify_expired := by
    intro uid email secret iat ttl now hnow
    have hlt : ¬ now < iat + ttl := by omega
    simp [demoJwt, demoVerify, demoSign, decodeNats_encodeNats, hlt]
  verify_other_secret := by
    intro uid email secret other iat ttl now hother
    simp only [demoJwt, demoVerify, demoSign, decodeNats_encodeNats]
    have hk : other.data.length = (other.data.map Char.toNat).length := by simp
    have htake : ((other.data.map Char.toNat ++ email.data.map Char.toNat).take
        other.data.length).map Char.ofNat = other.data := by
      rw [hk, List.take_left, map_ofNat_toNat]
    rw [htake]
    have : ¬ (String.mk other.data = secret) := hother
    simp [this]

/-- C11: each authenticated route is the middleware followed by its handler, and a
request that fails the middleware is answered by the middleware alone, whatever
the handler and the store are: 401 `Access token required` when no token is given,
403 `Invalid token` when `jwt.verify` reports an error, as it does for an expired
token and for a token signed with another secret; the store is returned as it was. -/
theorem unauthorized_request_rejected (rt : Runtime) (env : Env) (hjwt : JwtLawful rt.jwt)
    (hrej : JwtRejects rt.jwt) (nowMs : Nat) (s : Store)
    (handler : JwtClaims → Store → Response × Store) :
    (∀ (authorization : Option String) (cursor : List User) (body : DonationsBody),
      getDashboard rt env nowMs authorization s =
        withAuth rt env nowMs authorization dashboardHandler s ∧
      getLeaderboard rt env nowMs cursor s authorization =
        withAuth rt env nowMs authorization (fun _ => leaderboardHandler cursor) s ∧
      putDonations rt env nowMs authorization body s =
        withAuth rt env nowMs authorization (donationsHandler rt nowMs body) s) ∧
    (∀ authorization : Option String, truthy (extractToken authorization) = false →
      withAuth rt env nowMs authorization handler s =
        (⟨401, .error "Access token required"⟩, s)) ∧
    (∀ (authorization : Option String) (token : String),
      extractToken authorization = some token → token ≠ "" →
      rt.jwt.verify token (jwtSecret env) (nowMs / 1000) = none →
      withAuth rt env nowMs authorization handler s = (⟨403, .error "Invalid token"⟩, s)) ∧
    (∀ (uid : ObjectId) (email secret : String) (iat : Nat),
      secret ≠ jwtSecret env ∨ iat + 86400 ≤ nowMs / 1000 →
      withAuth rt env nowMs (some ("Bearer " ++ rt.jwt.sign uid email secret iat 86400))
        handler s = (⟨403, .error "Invalid token"⟩, s)) := by
  refine ⟨?_, ?_, ?_, ?_⟩
  · intro authorization cursor body
    refine ⟨rfl, ?_, rfl⟩
    unfold getLeaderboard withAuth
    cases authenticateToken rt env nowMs authorization <;> rfl
  · intro authorization h
    exact withAuth_no_token rt env nowMs authorization handler s h
  · intro authorization token ht hne hv
    exact withAuth_verify_fails rt env nowMs authorization handler s token ht hne hv
  · intro uid email secret iat h
    have hns := hjwt.sign_no_space uid email secret iat 86400
    have hne := hjwt.sign_ne_empty uid email secret iat 86400
    have hv : rt.jwt.verify (rt.jwt.sign uid email secret iat 86400) (jwtSecret env)
        (nowMs / 1000) = none := by
      by_cases hsec : secret = jwtSecret env
      · subst hsec
        rcases h with h | h
        · exact absurd rfl h
        · exact hrej.verify_expired uid email _ iat 86400 _ h
      · exact hrej.verify_other_secret uid email _ secret iat 86400 _ hsec
    exact withAuth_verify_fails rt env nowMs _ handler s _ (extractToken_bearer _ hns) hne hv

/-- C11 at concrete requests: a dashboard request without header, and a donation
update with a token that expired, against the store holding John. -/
theorem unauthorized_request_rejected_witness :
    withAuth demoRuntime sampleEnv 0 none dashboardHandler [sampleJohn] =
      (⟨401, .error "Access token required"⟩, [sampleJohn]) ∧
    withAuth demoRuntime sampleEnv 90000000
        (some ("Bearer " ++ demoRuntime.jwt.sign 1 "john@example.com" "your-secret-key" 0 86400))
        (donationsHandler demoRuntime 90000000 { amount := some 100 }) [sampleJohn] =
      (⟨403, .error "Invalid token"⟩, [sampleJohn]) :=
  ⟨(unauthorized_request_rejected demoRuntime sampleEnv demoJwt_lawful demoJwt_rejects 0
      [sampleJohn] dashboardHandler).2.1 none (by decide),
   (unauthorized_request_rejected demoRuntime sampleEnv demoJwt_lawful demoJwt_rejects 90000000
      [sampleJohn] (donationsHandler demoRuntime 90000000 { amount := some 100 })).2.2.2
      1 "john@example.com" "your-secret-key" 0 (Or.inr (by decide))⟩

/-! ## Referral-code collisions: theorems -/

theorem insertOne_duplicate_code (s : Store) (u : User)
    (h : ∃ v ∈ s, v.referralCode = u.referralCode) :
    insertOne s u = .error .duplicateKey := by
  obtain ⟨v, hv, hcode⟩ := h
  have hany : s.any (fun v => decide (v._id = u._id ∨ v.email = u.email ∨
      v.referralCode = u.referralCode)) = true := by
    rw [List.any_eq_true]
    exact ⟨v, hv, decide_eq_true (Or.inr (Or.inr hcode))⟩
  unfold insertOne
  rw [if_pos hany]

theorem validate_ok_fields (d : Draft) (nowMs : Nat) (u : User) (h : validate d nowMs = .ok u) :
    d.name = some u.name ∧ d.email = some u.email ∧ d.password = some u.password ∧
    u.name ≠ "" ∧ u.email ≠ "" ∧ u.password ≠ "" ∧
    u.referralCode = d.referralCode ∧ u.donationsRaised = d.donationsRaised ∧ u._id = d._id := by
  unfold validate at h
  split at h
  · rename_i n e p hn he hp
    split at h
    · cases h
    · rename_i hne
      injection h with h
      subst h
      simp only [not_or] at hne
      exact ⟨hn, he, hp, hne.1, hne.2.1, hne.2.2, rfl, rfl, rfl⟩
  · cases h

theorem saveNew_duplicate_code (rt : Runtime) (nowMs : Nat) (s : Store) (d : Draft) (n : String)
    (hn : d.name = some n) (hc : d.referralCode = none)
    (hcode : ∃ v ∈ s, v.referralCode = some (generate rt n)) :
    ∃ e, saveNew rt nowMs s d = .error e := by
  unfold saveNew
  cases hv : validate d nowMs with
  | error e => exact ⟨e, rfl⟩
  | ok u =>
    obtain ⟨hname, _, _, _, _, _, hrc, _, _⟩ := validate_ok_fields d nowMs u hv
    have hun : u.name = n := by
      rw [hn] at hname
      injection hname with hname
      exact hname.symm
    have hdup : insertOne s (preSave rt u) = .error .duplicateKey := by
      apply insertOne_duplicate_code
      obtain ⟨v, hvs, hvc⟩ := hcode
      exact ⟨v, hvs, by simp [preSave, truthy, hrc, hc, hun, hvc]⟩
    exact ⟨.duplicateKey, by simp [hdup]⟩

/-- C13, what the code does: a signup with a new email whose name normalises to the
referral code of a stored user creates no user and is answered by the generic
`catch` block, status 500 with `error: 'Server error'`; the handler has no branch
for the duplicate-key failure of `save()`, unlike the duplicate email, which it
checks and answers with 400. -/
theorem signup_code_collision_server_error (rt : Runtime) (env : Env) (fr : Fresh) (s : Store)
    (name email password : String)
    (hemail : ∀ u ∈ s, u.email ≠ email)
    (hcode : ∃ u ∈ s, u.referralCode = some (generate rt name)) :
    signup rt env fr s { name := some name, email := some email, password := some password } =
      (⟨500, .error "Server error"⟩, s) := by
  have hfind := findOneByEmail_none_of_forall s email hemail
  obtain ⟨e, he⟩ := saveNew_duplicate_code rt fr.nowMs s
    { _id := fr.oid, name := some name, email := some email,
      password := some (rt.bcryptHash password fr.salt), referralCode := none,
      donationsRaised := (fr.random.val : Int), joiningDate := fr.nowMs } name rfl rfl hcode
  simp only [signup, hfind, he]
  rfl

/-- C13 at a concrete request: `John Doe` signs up with a new email while `john doe`
holds `johndoe2025`; the answer is 500 `Server error` and the store is unchanged. -/
theorem signup_code_collision_server_error_witness :
    sampleJohn.referralCode = some (generate demoRuntime "John Doe") ∧
    signup demoRuntime sampleEnv sampleFresh [sampleJohn] sampleCollision =
      (⟨500, .error "Server error"⟩, [sampleJohn]) :=
  ⟨by decide,
   signup_code_collision_server_error demoRuntime sampleEnv sampleFresh [sampleJohn]
     "John Doe" "jd@example.com" "pw" (by decide) ⟨sampleJohn, by simp, by decide⟩⟩

/-! ## Reward helpers agree: theorems -/

theorem gap_message_ne_unlocked (text label : String) :
    "₹" ++ text ++ (" more for " ++ label) ≠ "All rewards unlocked! 🎉" := by
  intro h
  have := congrArg (fun t : String => t.data.head?) h
  simp [String.data_append] at this

/-- C15: `getRewardStatus` and `getNextReward` sit on the same rung of the ladder
no reward, Swag Kit, LinkedIn Shoutout, Certificate + Goodies: when the status is
the tier at rung `i`, `getNextReward` names the reward of rung `i + 1` with a
positive gap, and it reports that all rewards are unlocked exactly when the status
is the top tier. -/
theorem reward_status_and_next_agree (amount : Int) :
    (∃ i tier, tierLadder[i]? = some tier ∧
      (getRewardStatus amount).text = tier.1 ∧
      (getRewardStatus amount).unlocked = decide (0 < i) ∧
      (match tierLadder[i + 1]? with
        | none => getNextReward amount = "All rewards unlocked! 🎉"
        | some next => ∃ gap : Int, 0 < gap ∧
            getNextReward amount =
              "₹" ++ numberToString gap ++ (" more for " ++ next.2))) ∧
    (getNextReward amount = "All rewards unlocked! 🎉" ↔
      getRewardStatus amount = { text := "👑 Certificate + Goodies", unlocked := true }) := by
  by_cases h1 : amount < 1000
  · have e1 : getRewardStatus amount =
        { text := "Keep going to unlock rewards!", unlocked := false } := by
      have a : ¬ amount ≥ 5000 := by omega
      have b : ¬ amount ≥ 2500 := by omega
      have c : ¬ amount ≥ 1000 := by omega
      simp [getRewardStatus, a, b, c]
    have e2 : getNextReward amount = "₹" ++ numberToString (numberSub 1000 amount) ++
        (" more for " ++ "Swag Kit") := by
      simp only [getNextReward, h1, if_true]; rfl
    refine ⟨⟨0, _, rfl, by rw [e1]; rfl, by rw [e1]; rfl, numberSub 1000 amount,
      roundDouble_pos _ (by omega), e2⟩, ?_⟩
    rw [e1, e2]
    exact ⟨fun h => absurd h (gap_message_ne_unlocked _ _), fun h => absurd h (by decide)⟩
  · by_cases h2 : amount < 2500
    · have e1 : getRewardStatus amount = { text := "🎉 Free Swag Kit", unlocked := true } := by
        have a : ¬ amount ≥ 5000 := by omega
        have b : ¬ amount ≥ 2500 := by omega
        have c : amount ≥ 1000 := by omega
        simp [getRewardStatus, a, b, c]
      have e2 : getNextReward amount = "₹" ++ numberToString (numberSub 2500 amount) ++
          (" more for " ++ "LinkedIn Shoutout") := by
        simp only [getNextReward, h1, h2, if_true, if_false]; rfl
      refine ⟨⟨1, _, rfl, by rw [e1]; rfl, by rw [e1]; rfl, numberSub 2500 amount,
        roundDouble_pos _ (by omega), e2⟩, ?_⟩
      rw [e1, e2]
      exact ⟨fun h => absurd h (gap_message_ne_unlocked _ _), fun h => absurd h (by decide)⟩
    · by_cases h3 : amount < 5000
      · have e1 : getRewardStatus amount =
            { text := "🚀 LinkedIn Shoutout", unlocked := true } := by
          have a : ¬ amount ≥ 5000 := by omega
          have b : amount ≥ 2500 := by omega
          simp [getRewardStatus, a, b]
        have e2 : getNextReward amount = "₹" ++ numberToString (numberSub 5000 amount) ++
            (" more for " ++ "Certificate + Goodies") := by
          simp only [getNextReward, h1, h2, h3, if_true, if_false]; rfl
        refine ⟨⟨2, _, rfl, by rw [e1]; rfl, by rw [e1]; rfl, numberSub 5000 amount,
          roundDouble_pos _ (by omega), e2⟩, ?_⟩
        rw [e1, e2]
        exact ⟨fun h => absurd h (gap_message_ne_unlocked _ _), fun h => absurd h (by decide)⟩
      · have e1 : getRewardStatus amount =
            { text := "👑 Certificate + Goodies", unlocked := true } := by
          have a : amount ≥ 5000 := by omega
          simp [getRewardStatus, a]
        have e2 : getNextReward amount = "All rewards unlocked! 🎉" := by
          simp [getNextReward, h1, h2, h3]
        exact ⟨⟨3, _, rfl, by rw [e1]; rfl, by rw [e1]; rfl, e2⟩, by rw [e1, e2]; simp⟩

/-! ## Donation totals: theorems -/

theorem preSave_fields (rt : Runtime) (u : User) :
    (preSave rt u)._id = u._id ∧ (preSave rt u).name = u.name ∧
    (preSave rt u).email = u.email ∧ (preSave rt u).password = u.password ∧
    (preSave rt u).donationsRaised = u.donationsRaised ∧
    (preSave rt u).joiningDate = u.joiningDate ∧ (preSave rt u).createdAt = u.createdAt ∧
    (preSave rt u).updatedAt = u.updatedAt := by
  unfold preSave
  split <;> simp

theorem preSave_of_truthy (rt : Runtime) (u : User) (h : truthy u.referralCode = true) :
    preSave rt u = u := by
  simp [preSave, h]

theorem signup_store_cases (rt : Runtime) (env : Env) (fr : Fresh) (s : Store)
    (body : SignupBody) :
    (signup rt env fr s body).2 = s ∨
    ∃ u, (signup rt env fr s body).2 = s ++ [u] ∧ u.donationsRaised = (fr.random.val : Int) := by
  unfold signup
  cases findOneByEmail s body.email with
  | some v => exact Or.inl rfl
  | none =>
    cases body.password with
    | none => exact Or.inl rfl
    | some pw =>
      simp only
      split
      · exact Or.inl rfl
      · rename_i r u s' hsv
        obtain ⟨n, e, p, _, _, _, hu, hs', _⟩ := saveNew_ok rt fr.nowMs s s' _ u hsv
        refine Or.inr ⟨u, hs', ?_⟩
        rw [hu]
        exact (preSave_fields rt _).2.2.2.2.1

theorem validateAll_mem (nowMs : Nat) (ds : List Draft) (us : List User)
    (h : validateAll nowMs ds = .ok us) :
    ∀ u ∈ us, ∃ d ∈ ds, validate d nowMs = .ok u := by
  induction ds generalizing us with
  | nil =>
    simp only [validateAll] at h
    injection h with h
    subst h
    simp
  | cons d ds ih =>
    simp only [validateAll] at h
    cases hv : validate d nowMs with
    | error e => simp [hv] at h
    | ok u0 =>
      simp only [hv] at h
      cases hr : validateAll nowMs ds with
      | error e => simp [hr] at h
      | ok us0 =>
        simp only [hr] at h
        injection h with h
        subst h
        intro u hu
        rcases List.mem_cons.mp hu with rfl | hu
        · exact ⟨d, List.mem_cons_self _ _, hv⟩
        · obtain ⟨d0, hd0, hv0⟩ := ih us0 hr u hu
          exact ⟨d0, List.mem_cons_of_mem _ hd0, hv0⟩

theorem insertOrdered_mem (us : List User) (s : Store) :
    ∀ v ∈ (insertOrdered s us).2, v ∈ s ∨ v ∈ us := by
  induction us generalizing s with
  | nil => intro v hv; exact Or.inl hv
  | cons u us ih =>
    intro v hv
    simp only [insertOrdered] at hv
    cases hi : insertOne s u with
    | error e =>
      simp only [hi] at hv
      exact Or.inl hv
    | ok s' =>
      simp only [hi] at hv
      rcases ih s' v hv with h | h
      · rw [(insertOne_ok s s' u hi).1] at h
        rcases List.mem_append.mp h with h | h
        · exact Or.inl h
        · exact Or.inr (by simp at h; simp [h])
      · exact Or.inr (List.mem_cons_of_mem _ h)

theorem demoUsers_donations_nonneg (rt : Runtime) (fr : SeedFresh) :
    ∀ d ∈ demoUsers rt fr, 0 ≤ d.donationsRaised := by
  intro d hd
  simp only [demoUsers, List.mem_cons, List.mem_singleton, List.not_mem_nil, or_false] at hd
  rcases hd with rfl | rfl | rfl | rfl | rfl <;> simp

theorem seed_store_mem (rt : Runtime) (fr : SeedFresh) (s : Store) :
    ∀ v ∈ (seed rt fr s).2, v ∈ s ∨ 0 ≤ v.donationsRaised := by
  intro v hv
  unfold seed at hv
  split at hv
  · exact Or.inl hv
  · have hmem : v ∈ (insertMany fr.nowMs s (demoUsers rt fr)).2 := by
      split at hv <;> simp_all
    unfold insertMany at hmem
    cases hva : validateAll fr.nowMs (demoUsers rt fr) with
    | error e =>
      simp only [hva] at hmem
      exact Or.inl hmem
    | ok us =>
      simp only [hva] at hmem
      rcases insertOrdered_mem us s v hmem with h | h
      · exact Or.inl h
      · obtain ⟨d, hd, hvd⟩ := validateAll_mem fr.nowMs _ us hva v h
        have hdon := (validate_ok_fields d fr.nowMs v hvd).2.2.2.2.2.2.2.1
        right
        rw [hdon]
        exact demoUsers_donations_nonneg rt fr d hd

theorem findById_mem (s : Store) (id : ObjectId) (u : User) (h : findById s id = some u) :
    u ∈ s ∧ u._id = id := by
  unfold findById at h
  exact ⟨List.mem_of_find?_eq_some h, by simpa using List.find?_some h⟩

theorem replaceById_mem (doc : User) (s : Store) :
    ∀ v ∈ replaceById doc s, v = doc ∨ v ∈ s := by
  induction s with
  | nil => intro v hv; simp [replaceById] at hv
  | cons w ws ih =>
    intro v hv
    simp only [replaceById] at hv
    split at hv
    · rcases List.mem_cons.mp hv with h | h
      · exact Or.inl h
      · exact Or.inr (List.mem_cons_of_mem _ h)
    · rcases List.mem_cons.mp hv with h | h
      · exact Or.inr (by simp [h])
      · rcases ih v h with h | h
        · exact Or.inl h
        · exact Or.inr (List.mem_cons_of_mem _ h)

theorem saveExisting_ok (rt : Runtime) (nowMs : Nat) (s s' : Store) (loaded doc saved : User)
    (h : saveExisting rt nowMs s loaded doc = .ok (saved, s')) :
    s' = replaceById saved s ∧ saved.donationsRaised = doc.donationsRaised := by
  unfold saveExisting at h
  by_cases hv : doc.name = "" ∨ doc.email = "" ∨ doc.password = ""
  · rw [if_pos hv] at h
    cases h
  · rw [if_neg hv] at h
    simp only at h
    generalize hst : (if doc = loaded then doc else { doc with updatedAt := nowMs }) = stamped
      at h
    have hdon : stamped.donationsRaised = doc.donationsRaised := by
      rw [← hst]; split <;> rfl
    split at h
    · cases h
    · injection h with h
      injection h with h1 h2
      subst h1
      exact ⟨h2.symm, by rw [(preSave_fields rt _).2.2.2.2.1, hdon]⟩

theorem donationsHandler_store_cases (rt : Runtime) (nowMs : Nat) (body : DonationsBody)
    (reqUser : JwtClaims) (s : Store) :
    (donationsHandler rt nowMs body reqUser s).2 = s ∨
    ∃ user amount saved, user ∈ s ∧ body.amount = some amount ∧
      saved.donationsRaised = numberAdd user.donationsRaised (roundDouble amount) ∧
      (donationsHandler rt nowMs body reqUser s).2 = replaceById saved s := by
  unfold donationsHandler
  cases hf : findById s reqUser.userId with
  | none => exact Or.inl rfl
  | some user =>
    cases ha : body.amount with
    | none => exact Or.inl rfl
    | some amount =>
      simp only
      split
      · exact Or.inl rfl
      · rename_i r saved s' hsv
        obtain ⟨hs', hd⟩ := saveExisting_ok rt nowMs s s' _ _ saved hsv
        exact Or.inr ⟨user, amount, saved, (findById_mem s _ user hf).1, rfl, hd, hs'⟩

theorem withAuth_cases (rt : Runtime) (env : Env) (nowMs : Nat) (authorization : Option String)
    (handler : JwtClaims → Store → Response × Store) (s : Store) :
    (withAuth rt env nowMs authorization handler s).2 = s ∨
    ∃ reqUser, withAuth rt env nowMs authorization handler s = handler reqUser s := by
  unfold withAuth
  cases authenticateToken rt env nowMs authorization with
  | error r => exact Or.inl rfl
  | ok c => exact Or.inr ⟨c, rfl⟩

/-- C12, as the code has it: signup and seed store non-negative totals, and the
donation update adds the amount it is sent; so in every store state reachable from
the empty store by signup, seed and donation updates whose amount is absent or
non-negative, every user has a non-negative `donationsRaised`. -/
theorem donations_nonneg_of_nonneg_amounts (rt : Runtime) (env : Env) (s : Store)
    (h : Reachable rt env (fun body => ∀ a, body.amount = some a → 0 ≤ a) s) :
    ∀ u ∈ s, 0 ≤ u.donationsRaised := by
  induction h with
  | empty => intro u hu; simp at hu
  | signup s fr body _ ih =>
    intro u hu
    rcases signup_store_cases rt env fr s body with hs | ⟨w, hs, hw⟩
    · rw [hs] at hu; exact ih u hu
    · rw [hs] at hu
      rcases List.mem_append.mp hu with hu | hu
      · exact ih u hu
      · simp only [List.mem_singleton] at hu
        rw [hu, hw]
        exact Int.ofNat_nonneg _
  | seed s fr _ ih =>
    intro u hu
    rcases seed_store_mem rt fr s u hu with h | h
    · exact ih u h
    · exact h
  | donations s nowMs authorization body hallowed _ ih =>
    intro u hu
    unfold putDonations at hu
    rcases withAuth_cases rt env nowMs authorization (donationsHandler rt nowMs body) s with
      hs | ⟨c, hs⟩
    · rw [hs] at hu; exact ih u hu
    · rw [hs] at hu
      rcases donationsHandler_store_cases rt nowMs body c s with hd | ⟨user, a, saved, hus, ha, hsd, hd⟩
      · rw [hd] at hu; exact ih u hu
      · rw [hd] at hu
        rcases replaceById_mem saved s u hu with h | h
        · rw [h, hsd]
          have h1 := ih user hus
          have h2 := roundDouble_nonneg a (hallowed a ha)
          exact roundDouble_nonneg _ (by omega)
        · exact ih u h

/-- C12 at a concrete run: Alice signs up with a total of 1234 and then adds 100. -/
theorem donations_nonneg_of_nonneg_amounts_witness :
    Reachable demoRuntime sampleEnv (fun body => ∀ a, body.amount = some a → 0 ≤ a)
      [sampleAliceTopped] ∧
    0 ≤ sampleAliceTopped.donationsRaised := by
  have h1 : (signup demoRuntime sampleEnv sampleFresh [] sampleSignup).2 = [sampleAlice] := by
    decide
  have h2 : putDonations demoRuntime sampleEnv 5000
        (some ("Bearer " ++ issueToken demoRuntime sampleEnv 0 sampleAlice))
        { amount := some 100 } [sampleAlice] =
      (⟨200, .donations "Donation amount updated" 1334⟩, [sampleAliceTopped]) := by
    unfold putDonations
    rw [withAuth_issued demoRuntime sampleEnv demoJwt_lawful sampleAlice 0 5000 (by decide)]
    decide
  have hr := @Reachable.donations demoRuntime sampleEnv
    (fun body => ∀ a, body.amount = some a → 0 ≤ a) _ 5000
    (some ("Bearer " ++ issueToken demoRuntime sampleEnv 0 sampleAlice))
    { amount := some 100 }
    (fun a ha => by
      have h : (100 : Int) = a := Option.some.inj ha
      omega)
    (Reachable.signup [] sampleFresh sampleSignup Reachable.empty)
  rw [h1, h2] at hr
  exact ⟨hr, donations_nonneg_of_nonneg_amounts demoRuntime sampleEnv _ hr sampleAliceTopped
    (by simp)⟩

/-- C12 as stated fails: Alice signs up into the empty store with a total of 1234;
a donation update with her token and the amount -2000 is answered 200 and leaves
her with a total of -766. -/
theorem donations_negative_reachable :
    (signup demoRuntime sampleEnv sampleFresh [] sampleSignup).2 = [sampleAlice] ∧
    putDonations demoRuntime sampleEnv 5000
        (some ("Bearer " ++ issueToken demoRuntime sampleEnv 0 sampleAlice))
        { amount := some (-2000) } [sampleAlice] =
      (⟨200, .donations "Donation amount updated" (-766)⟩, [sampleAliceOverdrawn]) ∧
    Reachable demoRuntime sampleEnv (fun _ => True) [sampleAliceOverdrawn] ∧
    ∃ u ∈ [sampleAliceOverdrawn], u.donationsRaised < 0 := by
  have h1 : (signup demoRuntime sampleEnv sampleFresh [] sampleSignup).2 = [sampleAlice] := by
    decide
  have h2 : putDonations demoRuntime sampleEnv 5000
        (some ("Bearer " ++ issueToken demoRuntime sampleEnv 0 sampleAlice))
        { amount := some (-2000) } [sampleAlice] =
      (⟨200, .donations "Donation amount updated" (-766)⟩, [sampleAliceOverdrawn]) := by
    unfold putDonations
    rw [withAuth_issued demoRuntime sampleEnv demoJwt_lawful sampleAlice 0 5000 (by decide)]
    decide
  refine ⟨h1, h2, ?_, sampleAliceOverdrawn, by simp, by decide⟩
  have hr := @Reachable.donations demoRuntime sampleEnv (fun _ => True) _ 5000
    (some ("Bearer " ++ issueToken demoRuntime sampleEnv 0 sampleAlice))
    { amount := some (-2000) } trivial
    (Reachable.signup [] sampleFresh sampleSignup Reachable.empty)
  rw [h1, h2] at hr
  exact hr

/-! ## Frame of the donation update: theorems -/

theorem findById_split (s : Store) (id : ObjectId) (u : User) (h : findById s id = some u) :
    ∃ pre post, s = pre ++ u :: post ∧ (∀ v ∈ pre, v._id ≠ id) ∧ u._id = id := by
  induction s with
  | nil => simp [findById] at h
  | cons w ws ih =>
    by_cases hw : w._id = id
    · have : u = w := by
        simp [findById, List.find?, hw] at h
        exact h.symm
      subst this
      exact ⟨[], ws, rfl, by simp, hw⟩
    · have h0 : findById ws id = some u := by
        simpa [findById, List.find?, hw] using h
      obtain ⟨pre, post, hs, hpre, hu⟩ := ih h0
      refine ⟨w :: pre, post, by rw [hs]; rfl, ?_, hu⟩
      intro v hv
      rcases List.mem_cons.mp hv with rfl | hv
      · exact hw
      · exact hpre v hv

theorem findById_none_of_forall (s : Store) (id : ObjectId) (h : ∀ v ∈ s, v._id ≠ id) :
    findById s id = none := by
  unfold findById
  exact List.find?_eq_none.mpr (fun v hv => by simpa using h v hv)

theorem replaceById_split (doc u : User) (pre post : Store)
    (hpre : ∀ v ∈ pre, v._id ≠ doc._id) (hu : u._id = doc._id) :
    replaceById doc (pre ++ u :: post) = pre ++ doc :: post := by
  induction pre with
  | nil => simp [replaceById, hu]
  | cons w ws ih =>
    have hw : w._id ≠ doc._id := hpre w (List.mem_cons_self _ _)
    have hws : ∀ v ∈ ws, v._id ≠ doc._id := fun v hv => hpre v (List.mem_cons_of_mem _ hv)
    simp [replaceById, hw, ih hws]

theorem saveExisting_of_code (rt : Runtime) (nowMs : Nat) (s : Store) (loaded doc : User)
    (hvalid : doc.name ≠ "" ∧ doc.email ≠ "" ∧ doc.password ≠ "")
    (hcode : truthy doc.referralCode = true) (hsame : doc.referralCode = loaded.referralCode) :
    ∃ saved, saveExisting rt nowMs s loaded doc = .ok (saved, replaceById saved s) ∧
      saved._id = doc._id ∧ saved.name = doc.name ∧ saved.email = doc.email ∧
      saved.password = doc.password ∧ saved.referralCode = doc.referralCode ∧
      saved.donationsRaised = doc.donationsRaised ∧ saved.joiningDate = doc.joiningDate ∧
      saved.createdAt = doc.createdAt := by
  have hv : ¬ (doc.name = "" ∨ doc.email = "" ∨ doc.password = "") := by
    simp [hvalid.1, hvalid.2.1, hvalid.2.2]
  unfold saveExisting
  rw [if_neg hv]
  simp only
  generalize hst : (if doc = loaded then doc else { doc with updatedAt := nowMs }) = stamped
  have hfields : stamped._id = doc._id ∧ stamped.name = doc.name ∧ stamped.email = doc.email ∧
      stamped.password = doc.password ∧ stamped.referralCode = doc.referralCode ∧
      stamped.donationsRaised = doc.donationsRaised ∧ stamped.joiningDate = doc.joiningDate ∧
      stamped.createdAt = doc.createdAt := by
    rw [← hst]; split <;> simp
  have hpre : preSave rt stamped = stamped :=
    preSave_of_truthy rt stamped (by rw [hfields.2.2.2.2.1]; exact hcode)
  rw [hpre]
  have hnodup : ¬ (stamped.referralCode ≠ loaded.referralCode ∧
      (eraseById loaded._id s).any (fun v => v.referralCode = stamped.referralCode) = true) := by
    intro h
    exact h.1 (by rw [hfields.2.2.2.2.1, hsame])
  rw [if_neg hnodup]
  exact ⟨stamped, rfl, hfields⟩

/-- C14, as the code has it: for a stored user `u` that passes the schema's required
checks and has a referral code, and an integer `amount` such that `amount` and the
new total are safe integers, the donation update answers 200 with
`u.donationsRaised + amount`, replaces `u` in place by a document with that total
and the same id, name, email, password hash, referral code and joining date, and
leaves every other document where it was; for an id that no document has it answers
404 and keeps the store; login, dashboard and leaderboard return the store
unchanged. -/
theorem donations_update_frame (rt : Runtime) (env : Env) (nowMs : Nat) (s : Store)
    (reqUser : JwtClaims) (u : User) (amount : Int)
    (hfind : findById s reqUser.userId = some u)
    (hvalid : u.name ≠ "" ∧ u.email ≠ "" ∧ u.password ≠ "")
    (hcode : truthy u.referralCode = true)
    (hamount : IsSafeInteger amount)
    (htotal : IsSafeInteger (u.donationsRaised + amount)) :
    (∃ pre post saved,
      s = pre ++ u :: post ∧
      donationsHandler rt nowMs { amount := some amount } reqUser s =
        (⟨200, .donations "Donation amount updated" (u.donationsRaised + amount)⟩,
          pre ++ saved :: post) ∧
      saved.donationsRaised = u.donationsRaised + amount ∧
      saved._id = u._id ∧ saved.name = u.name ∧ saved.email = u.email ∧
      saved.password = u.password ∧ saved.referralCode = u.referralCode ∧
      saved.joiningDate = u.joiningDate) ∧
    (∀ (body : DonationsBody) (other : JwtClaims), (∀ v ∈ s, v._id ≠ other.userId) →
      donationsHandler rt nowMs body other s = (⟨404, .error "User not found"⟩, s)) ∧
    (∀ (fr : Fresh) (body : LoginBody), (login rt env fr s body).2 = s) ∧
    (∀ authorization : Option String, (getDashboard rt env nowMs authorization s).2 = s) ∧
    (∀ (cursor : List User) (authorization : Option String),
      (getLeaderboard rt env nowMs cursor s authorization).2 = s) := by
  refine ⟨?_, ?_, ?_, ?_, ?_⟩
  · obtain ⟨pre, post, hs, hpre, hid⟩ := findById_split s _ u hfind
    have hexact : numberAdd u.donationsRaised (roundDouble amount) =
        u.donationsRaised + amount := by
      have h1 : amount.natAbs < 9007199254740992 := by
        have := hamount
        simp only [IsSafeInteger, maxSafeInteger] at this
        omega
      have h2 : (u.donationsRaised + amount).natAbs < 9007199254740992 := by
        have := htotal
        simp only [IsSafeInteger, maxSafeInteger] at this
        omega
      unfold numberAdd
      rw [roundDouble_of_lt amount h1, roundDouble_of_lt _ h2]
    obtain ⟨saved, hsave, h1, h2, h3, h4, h5, h6, h7, _⟩ :=
      saveExisting_of_code rt nowMs s u
        { u with donationsRaised := numberAdd u.donationsRaised (roundDouble amount) }
        hvalid hcode rfl
    simp only [hexact] at h6
    refine ⟨pre, post, saved, hs, ?_, h6, h1, h2, h3, h4, h5, h7⟩
    have hrep : replaceById saved s = pre ++ saved :: post := by
      rw [hs]
      exact replaceById_split saved u pre post (fun v hv => by rw [h1, hid]; exact hpre v hv)
        (by rw [h1])
    simp only [donationsHandler, hfind, hsave, hrep, h6]
  · intro body other hother
    simp [donationsHandler, findById_none_of_forall s _ hother]
  · intro fr body
    unfold login
    cases findOneByEmail s body.email with
    | none => rfl
    | some user =>
      cases body.password with
      | none => rfl
      | some pw =>
        simp only
        split <;> rfl
  · intro authorization
    unfold getDashboard
    rcases withAuth_cases rt env nowMs authorization dashboardHandler s with h | ⟨c, h⟩
    · exact h
    · rw [h]
      unfold dashboardHandler
      cases findById s c.userId <;> rfl
  · intro cursor authorization
    unfold getLeaderboard
    cases authenticateToken rt env nowMs authorization <;> rfl

/-- C14 at a concrete request: Alice, stored between John and D with the code
`alicesmith2025` and a total of 1234, adds 100; her document gets the total 1334
and the two other documents stay where they were. -/
theorem donations_update_frame_witness :
    donationsHandler demoRuntime 5000 { amount := some 100 } sampleAliceClaims sampleThree =
      (⟨200, .donations "Donation amount updated" 1334⟩,
        [sampleJohn, sampleAliceTopped, userD]) ∧
    ∃ pre post saved,
      sampleThree = pre ++ sampleAlice :: post ∧
      donationsHandler demoRuntime 5000 { amount := some 100 } sampleAliceClaims sampleThree =
        (⟨200, .donations "Donation amount updated" (sampleAlice.donationsRaised + 100)⟩,
          pre ++ saved :: post) ∧
      saved.donationsRaised = sampleAlice.donationsRaised + 100 ∧
      saved._id = sampleAlice._id ∧ saved.name = sampleAlice.name ∧
      saved.email = sampleAlice.email ∧ saved.password = sampleAlice.password ∧
      saved.referralCode = sampleAlice.referralCode ∧
      saved.joiningDate = sampleAlice.joiningDate :=
  ⟨by decide,
   (donations_update_frame demoRuntime sampleEnv 5000 sampleThree sampleAliceClaims sampleAlice
    100 (by decide) (by decide) (by decide) (by decide) (by decide)).1⟩

/-- The donation update adds as JavaScript does: the literal 9007199254740993 is
read as the double 9007199254740992, so adding it to 1234 gives 9007199254742226;
and adding 1 to a total of `2 ^ 53` leaves the total as it was. -/
theorem donations_update_rounds :
    (donationsHandler demoRuntime 5000 { amount := some 9007199254740993 } sampleAliceClaims
        [sampleAlice]).1 =
      ⟨200, .donations "Donation amount updated" 9007199254742226⟩ ∧
    (donationsHandler demoRuntime 5000 { amount := some 1 } sampleAliceClaims
        [{ sampleAlice with donationsRaised := 9007199254740992 }]).1 =
      ⟨200, .donations "Donation amount updated" 9007199254740992⟩ := by
  refine ⟨by decide, by decide⟩

/-- The seed route on the empty store, as modelled: `insertMany` stores the first
demo user without running the `pre('save')` hook, hence without a `referralCode`;
the second one, which has none either, is refused by the unique index on
`referralCode`, and the route answers 500. -/
theorem seed_on_empty_store :
    seed demoRuntime sampleSeedFresh [] = (⟨500, .error "Server error"⟩, [sampleSeeded]) := by
  decide

/-- C14 as stated fails: for a user stored without a referral code, as `insertMany`
of the seed route stores its users, a donation update of 100 with that user's
token is answered 200 and also writes the referral code that the `pre('save')`
hook generates, so `referralCode` does not stay unchanged. -/
theorem donations_update_assigns_referralCode :
    findById [sampleSeeded] sampleSeededClaims.userId = some sampleSeeded ∧
    sampleSeeded.referralCode = none ∧
    putDonations demoRuntime sampleEnv 5000
        (some ("Bearer " ++ issueToken demoRuntime sampleEnv 0 sampleSeeded))
        { amount := some 100 } [sampleSeeded] =
      (⟨200, .donations "Donation amount updated" 5100⟩, [sampleSeededUpdated]) ∧
    sampleSeededUpdated.referralCode = some "akshadpastambh2025" ∧
    sampleSeededUpdated.referralCode ≠ sampleSeeded.referralCode := by
  refine ⟨by decide, rfl, ?_, rfl, by decide⟩
  unfold putDonations
  rw [withAuth_issued demoRuntime sampleEnv demoJwt_lawful sampleSeeded 0 5000 (by decide)]
  decide

end Referral
